import Mathlib

/-
Verification development for the Gazette Reconstruction & Record Extraction
Engine (muresultparser).  The TypeScript sources under src/lib/recordParser.ts,
src/lib/validator.ts and the PDF line reconstructor are shallowly embedded as
executable Lean functions over character lists.  JavaScript numbers are
modelled exactly: integer-valued quantities as Int/Nat, general numbers as
the exact fraction type Q below (value semantics; no claim here depends on
IEEE rounding), and numbers that may hold NaN as Option values with none
standing for NaN.  JavaScript parseInt is modelled in base 10 (the gazette
tokens are decimal).
-/

namespace MUR

/-! ## Exact JS number model -/

/-- An exact fraction n / d with d intended positive.  Representations are
not normalised; all value comparisons used by the embedded code go through
qEqv / qLtB and friends, which compare by cross-multiplication. -/
structure Q where
  n : Int
  d : Nat
deriving DecidableEq, Repr

def qOfInt (i : Int) : Q := ⟨i, 1⟩

def qOfNat (m : Nat) : Q := ⟨(m : Int), 1⟩

/-- Value equality of fractions. -/
def qEqv (a b : Q) : Bool := a.n * (b.d : Int) = b.n * (a.d : Int)

/-- Value strict order (denominators are positive in all produced values). -/
def qLtB (a b : Q) : Bool := a.n * (b.d : Int) < b.n * (a.d : Int)

def qAdd (a b : Q) : Q := ⟨a.n * (b.d : Int) + b.n * (a.d : Int), a.d * b.d⟩

def qSub (a b : Q) : Q := ⟨a.n * (b.d : Int) - b.n * (a.d : Int), a.d * b.d⟩

def qMul (a b : Q) : Q := ⟨a.n * b.n, a.d * b.d⟩

def qAbs (a : Q) : Q := ⟨a.n.natAbs, a.d⟩

/-- Division of a fraction by a positive constant. -/
def qDivNat (a : Q) (k : Nat) : Q := ⟨a.n, a.d * k⟩

/-- JS Math.round: floor (x + 1/2), computed by integer floored division. -/
def jsRound (a : Q) : Int := Int.fdiv (2 * a.n + (a.d : Int)) (2 * (a.d : Int))

/-- JS numbers that may hold NaN: none models NaN. -/
abbrev JSNum := Option Q

/-- NaN-propagating addition. -/
def jadd : JSNum → JSNum → JSNum
  | some a, some b => some (qAdd a b)
  | _, _ => none

/-- JS greater-than: any comparison with NaN is false. -/
def jgtB : JSNum → JSNum → Bool
  | some a, some b => qLtB b a
  | _, _ => false

/-- JS less-than: any comparison with NaN is false. -/
def jltB : JSNum → JSNum → Bool
  | some a, some b => qLtB a b
  | _, _ => false

/-- JS truthiness-based `a or b` for numbers: 0 and NaN are falsy. -/
def jsOrNum : JSNum → JSNum → JSNum
  | some v, w => if v.n = 0 then w else some v
  | none, w => w

/-- NaN-propagating addition on integers (token-walk totals). -/
def jaddI : Option Int → Option Int → Option Int
  | some a, some b => some (a + b)
  | _, _ => none

/-- JS greater-than on possibly-NaN integers. -/
def jgtI : Option Int → Option Int → Bool
  | some a, some b => b < a
  | _, _ => false

/-! ## JS string primitives -/

/-- Characters counted as whitespace by the JS regex class backslash-s
(the common ASCII cases occurring in extracted gazette text). -/
def isWsC (c : Char) : Bool := c = ' ' || c = '\t' || c = '\n' || c = '\r'

def isDigitC (c : Char) : Bool := '0' ≤ c && c ≤ '9'

def isUpperC (c : Char) : Bool := 'A' ≤ c && c ≤ 'Z'

def isLowerC (c : Char) : Bool := 'a' ≤ c && c ≤ 'z'

def isAlphaC (c : Char) : Bool := isUpperC c || isLowerC c

/-- JS String.prototype.trim. -/
def jsTrim (cs : List Char) : List Char :=
  ((cs.dropWhile isWsC).reverse.dropWhile isWsC).reverse

/-- JS replace of runs of whitespace by a single space; the flag records
whether the previous character was part of a whitespace run. -/
def collapseWsGo : Bool → List Char → List Char
  | _, [] => []
  | prevWs, c :: cs =>
      if isWsC c then
        if prevWs then collapseWsGo true cs
        else ' ' :: collapseWsGo true cs
      else c :: collapseWsGo false cs

/-- JS replace of runs of whitespace by a single space. -/
def collapseWs (cs : List Char) : List Char := collapseWsGo false cs

/-- Numeric value of a digit string. -/
def digitsToNat (ds : List Char) : Nat :=
  ds.foldl (fun a c => a * 10 + (c.toNat - 48)) 0

/-- JS parseInt in base 10: optional whitespace, optional sign, at least one
digit; none models NaN. -/
def parseIntJs (cs : List Char) : Option Int :=
  let a := cs.dropWhile isWsC
  let (sgn, b) : Int × List Char :=
    match a with
    | '-' :: t => (-1, t)
    | '+' :: t => (1, t)
    | _ => (1, a)
  let ds := b.takeWhile isDigitC
  if ds = [] then none else some (sgn * (digitsToNat ds : Int))

/-- JS parseFloat: optional whitespace, optional sign, digits with an optional
fractional part and an optional exponent; none models NaN. -/
def parseFloatQ (cs : List Char) : JSNum :=
  let a := cs.dropWhile isWsC
  let (sgn, b) : Int × List Char :=
    match a with
    | '-' :: t => (-1, t)
    | '+' :: t => (1, t)
    | _ => (1, a)
  let d1 := b.takeWhile isDigitC
  let c := b.dropWhile isDigitC
  let (d2, r) : List Char × List Char :=
    match c with
    | '.' :: t => (t.takeWhile isDigitC, t.dropWhile isDigitC)
    | _ => ([], c)
  if d1 = [] && d2 = [] then none
  else
    let mantN : Int := (digitsToNat d1 * 10 ^ d2.length + digitsToNat d2 : Nat)
    let mantD : Nat := 10 ^ d2.length
    let expo : Int :=
      match r with
      | 'e' :: t => parseExp t
      | 'E' :: t => parseExp t
      | _ => 0
    match expo with
    | Int.ofNat k => some ⟨sgn * mantN * (10 ^ k : Nat), mantD⟩
    | Int.negSucc k => some ⟨sgn * mantN, mantD * 10 ^ (k + 1)⟩
where
  /-- Exponent digits after the e marker; 0 when absent (parseFloat stops). -/
  parseExp (t : List Char) : Int :=
    let (esgn, u) : Int × List Char :=
      match t with
      | '-' :: v => (-1, v)
      | '+' :: v => (1, v)
      | _ => (1, t)
    let es := u.takeWhile isDigitC
    if es = [] then 0 else esgn * (digitsToNat es : Int)

/-! ## recordParser.ts: mark-row parsing -/

/-- One parsed TOT quintuple: total marks, grade point, grade letter(s),
credits and credit points (source: parseTotRow).  Totals and grade points
are integer-valued in every code path; the token-walk path can make the
total NaN (none) via a malformed grace token. -/
structure TotEntry where
  total : Option Int
  gp : Int
  grade : String
  credits : JSNum
  creditPoints : JSNum
deriving DecidableEq, Repr

/-- First occurrence of the grace annotation at-sign followed by digits
(source regex searching the whole token). -/
def findGrace : List Char → Option Nat
  | [] => none
  | c :: rest =>
      if c = '@' then
        let gs := rest.takeWhile isDigitC
        if gs = [] then findGrace rest else some (digitsToNat gs)
      else findGrace rest

/-- Value of one component-row token: leading digits plus any grace digits
found after an at-sign; none when the token has no leading digit. -/
def partValue (part : List Char) : Option Nat :=
  let ds := part.takeWhile isDigitC
  if ds = [] then none
  else
    match findGrace part with
    | some g => some (digitsToNat ds + g)
    | none => some (digitsToNat ds)

/-- parseComponentRow: normalize spacing, split on single spaces, keep the
numeric value of every token that starts with a digit. -/
def parseComponentRow (content : List Char) : List Nat :=
  ((collapseWs (jsTrim content)).splitOn ' ').filterMap partValue

def isGradeC (c : Char) : Bool := isUpperC c || c = '+'

def isNumDotC (c : Char) : Bool := isDigitC c || c = '.'

/-- Shared tail of the strict quintuple pattern after the total/grace part:
whitespace, grade-point digits, whitespace, grade (one uppercase letter then
uppercase-or-plus), whitespace, credits token, whitespace, credit-points
token.  Returns the parsed fields and the unconsumed suffix. -/
def strictRest (r : List Char) : Option (Int × String × JSNum × JSNum × List Char) :=
  if r.takeWhile isWsC = [] then none else
  let a := r.dropWhile isWsC
  let gpds := a.takeWhile isDigitC
  if gpds = [] then none else
  let b := a.dropWhile isDigitC
  if b.takeWhile isWsC = [] then none else
  let c := b.dropWhile isWsC
  match c with
  | [] => none
  | g0 :: c1 =>
      if isUpperC g0 then
        let gtail := c1.takeWhile isGradeC
        let d := c1.dropWhile isGradeC
        if d.takeWhile isWsC = [] then none else
        let e := d.dropWhile isWsC
        let crds := e.takeWhile isNumDotC
        if crds = [] then none else
        let f := e.dropWhile isNumDotC
        if f.takeWhile isWsC = [] then none else
        let g := f.dropWhile isWsC
        let cpds := g.takeWhile isNumDotC
        if cpds = [] then none else
        some (digitsToNat gpds, String.mk (g0 :: gtail), parseFloatQ crds,
              parseFloatQ cpds, g.dropWhile isNumDotC)
      else none

/-- Try the strict quintuple pattern at the current position: digits with an
optional plus, an optional grace group, then strictRest; the optional grace
group falls back to absent when the remainder fails after it (regex
backtracking).  Returns the entry and the unconsumed suffix. -/
def tryStrictAt (cs : List Char) : Option (TotEntry × List Char) :=
  let ds := cs.takeWhile isDigitC
  if ds = [] then none else
  let r1 := cs.dropWhile isDigitC
  let r2 := if r1.head? = some '+' then r1.tail else r1
  let withG2 : Option (Nat × List Char) :=
    let aw := r2.dropWhile isWsC
    if aw.head? = some '@' then
      let t := aw.tail
      let gs := t.takeWhile isDigitC
      if gs = [] then none else some (digitsToNat gs, t.dropWhile isDigitC)
    else none
  let mk (g : Nat) (tl : Int × String × JSNum × JSNum × List Char) :
      TotEntry × List Char :=
    ({ total := some ((digitsToNat ds + g : Nat) : Int), gp := tl.1,
       grade := tl.2.1, credits := tl.2.2.1, creditPoints := tl.2.2.2.1 },
     tl.2.2.2.2)
  match withG2 with
  | some (g, r3) =>
      match strictRest r3 with
      | some tl => some (mk g tl)
      | none => (strictRest r2).map (mk 0)
  | none => (strictRest r2).map (mk 0)

/-- Try the alternative quintuple pattern: like the strict one but the plus
marker sits outside the total group and the grade letter is restricted to
the closed grade alphabet. -/
def tryAltAt (cs : List Char) : Option (TotEntry × List Char) :=
  let ds := cs.takeWhile isDigitC
  if ds = [] then none else
  let r1 := cs.dropWhile isDigitC
  let r2 := match r1 with
    | '+' :: t => t
    | _ => r1
  let withG2 : Option (Nat × List Char) :=
    match r2.dropWhile isWsC with
    | '@' :: t =>
        let gs := t.takeWhile isDigitC
        if gs = [] then none else some (digitsToNat gs, t.dropWhile isDigitC)
    | _ => none
  let mk (g : Nat) (tl : Int × String × JSNum × JSNum × List Char) :
      TotEntry × List Char :=
    ({ total := some ((digitsToNat ds + g : Nat) : Int), gp := tl.1,
       grade := tl.2.1, credits := tl.2.2.1, creditPoints := tl.2.2.2.1 },
     tl.2.2.2.2)
  match withG2 with
  | some (g, r3) =>
      match altRest r3 with
      | some tl => some (mk g tl)
      | none => (altRest r2).map (mk 0)
  | none => (altRest r2).map (mk 0)
where
  /-- Tail of the alternative pattern: grade is one letter of ABCDFO with an
  optional plus. -/
  altRest (r : List Char) : Option (Int × String × JSNum × JSNum × List Char) :=
    if r.takeWhile isWsC = [] then none else
    let a := r.dropWhile isWsC
    let gpds := a.takeWhile isDigitC
    if gpds = [] then none else
    let b := a.dropWhile isDigitC
    if b.takeWhile isWsC = [] then none else
    let c := b.dropWhile isWsC
    match c with
    | [] => none
    | g0 :: c1 =>
        if g0 = 'A' || g0 = 'B' || g0 = 'C' || g0 = 'D' || g0 = 'F' || g0 = 'O' then
          let (grade, d) : List Char × List Char :=
            match c1 with
            | '+' :: c2 => ([g0, '+'], c2)
            | _ => ([g0], c1)
          if d.takeWhile isWsC = [] then none else
          let e := d.dropWhile isWsC
          let crds := e.takeWhile isNumDotC
          if crds = [] then none else
          let f := e.dropWhile isNumDotC
          if f.takeWhile isWsC = [] then none else
          let g := f.dropWhile isWsC
          let cpds := g.takeWhile isNumDotC
          if cpds = [] then none else
          some (digitsToNat gpds, String.mk grade, parseFloatQ crds,
                parseFloatQ cpds, g.dropWhile isNumDotC)
        else none

/-- Global-regex scan: try the matcher at every position left to right,
continuing after each match (JS exec with the g flag).  Every successful
match consumes at least one character, so fuel equal to the input length
plus one suffices; the fuel only bounds the recursion depth. -/
def scanGo {α : Type} (tryAt : List Char → Option (α × List Char)) :
    Nat → List Char → List α
  | 0, _ => []
  | _, [] => []
  | Nat.succ n, c :: rest =>
      match tryAt (c :: rest) with
      | some (e, rem) => e :: scanGo tryAt n rem
      | none => scanGo tryAt n rest

def scanWith {α : Type} (tryAt : List Char → Option (α × List Char))
    (cs : List Char) : List α :=
  scanGo tryAt (cs.length + 1) cs

example : scanWith tryStrictAt "77+ 7 B+ 3 21.0".data =
    [⟨some 77, 7, "B+", some ⟨3, 1⟩, some ⟨210, 10⟩⟩] := by decide

example : scanWith tryStrictAt "38 0 F 3 0.0 42 8 A 4 32.0".data =
    [⟨some 38, 0, "F", some ⟨3, 1⟩, some ⟨0, 10⟩⟩,
     ⟨some 42, 8, "A", some ⟨4, 1⟩, some ⟨320, 10⟩⟩] := by decide

example : parseComponentRow "38@5 12 7".data = [43, 12, 7] := by decide

/-- The trimmed content split on whitespace runs (JS trim then split).  An
all-whitespace content yields one empty token, as in JS. -/
def splitWsTokens (content : List Char) : List (List Char) :=
  (collapseWs (jsTrim content)).splitOn ' '

/-- Full-token match of the total-with-optional-grace pattern digits,
optional plus, optional at-sign grace group, end of token.  Returns the
digit value and the grace digits when present. -/
def matchTotalToken (t : List Char) : Option (Nat × Option Nat) :=
  let ds := t.takeWhile isDigitC
  if ds = [] then none else
  let r := t.dropWhile isDigitC
  let r2 := match r with
    | '+' :: u => u
    | _ => r
  match r2 with
  | [] => some (digitsToNat ds, none)
  | '@' :: u =>
      let gs := u.takeWhile isDigitC
      if gs = [] then none
      else if u.dropWhile isDigitC = [] then
        some (digitsToNat ds, some (digitsToNat gs))
      else none
  | _ => none

/-- Full-token match of a grade letter run merged with a credits number
(letters-or-plus, digits, optional fractional part, end of token). -/
def mergedMatch (t : List Char) : Option (List Char × List Char) :=
  let g1 := t.takeWhile (fun c => isAlphaC c || c = '+')
  if g1 = [] then none else
  let r := t.dropWhile (fun c => isAlphaC c || c = '+')
  let d1 := r.takeWhile isDigitC
  if d1 = [] then none else
  match r.dropWhile isDigitC with
  | [] => some (g1, d1)
  | '.' :: u =>
      let d2 := u.takeWhile isDigitC
      if d2 ≠ [] && u.dropWhile isDigitC = [] then some (g1, d1 ++ '.' :: d2)
      else none
  | _ => none

/-- Case-insensitive test for a closed-alphabet grade letter with an
optional plus. -/
def gradeTokTest (g : List Char) : Bool :=
  match g with
  | [c] => isGradeLetterCi c
  | [c, '+'] => isGradeLetterCi c
  | _ => false
where
  isGradeLetterCi (c : Char) : Bool :=
    let u := c.toUpper
    u = 'A' || u = 'B' || u = 'C' || u = 'D' || u = 'F' || u = 'O'

/-- One iteration of the token-walk fallback loop; returns the entry pushed
by this iteration (if any) and the tokens remaining at the next loop entry.
Every iteration consumes at least one token. -/
def walkIter : List (List Char) → Option (Option TotEntry × List (List Char))
  | [] => none
  | t0 :: rest =>
      match matchTotalToken t0 with
      | none => some (none, rest)
      | some (base, maybeGrace) =>
          let (total, r1) : Option Int × List (List Char) :=
            match maybeGrace with
            | some g => (some ((base + g : Nat) : Int), rest)
            | none =>
                match rest with
                | t1 :: rest2 =>
                    if t1.head? = some '@' then
                      (jaddI (some (base : Int)) (parseIntJs (t1.drop 1)), rest2)
                    else (some (base : Int), rest)
                | [] => (some (base : Int), [])
          match r1 with
          | [] => some (none, [])
          | tg :: r2 =>
              match parseIntJs tg with
              | none => some (none, tg :: r2)
              | some gp =>
                  match r2 with
                  | [] => some (none, [])
                  | tk :: r3 =>
                      let (grade, creditsTok, rNext) :
                          List Char × Option (List Char) × List (List Char) :=
                        match mergedMatch tk with
                        | some (g1, gtok) =>
                            if gradeTokTest g1 then (g1.map Char.toUpper, some gtok, r3)
                            else
                              match r3 with
                              | tc :: r4 => (tk, some tc, r4)
                              | [] => (tk, none, [])
                        | none =>
                            match r3 with
                            | tc :: r4 => (tk, some tc, r4)
                            | [] => (tk, none, [])
                      match creditsTok.bind (fun t => parseFloatQ t) with
                      | none => some (none, rNext)
                      | some credits =>
                          match rNext with
                          | [] => some (none, [])
                          | tcp :: r5 =>
                              match parseFloatQ tcp with
                              | none => some (none, tcp :: r5)
                              | some cp =>
                                  if gradeTokTest grade then
                                    some (some ⟨total, gp, String.mk grade,
                                               some credits, some cp⟩, r5)
                                  else some (none, r5)

/-- The token-walk fallback loop; fuel equal to the token count plus one
suffices since every iteration consumes at least one token. -/
def tokenWalkGo : Nat → List (List Char) → List TotEntry
  | 0, _ => []
  | Nat.succ n, toks =>
      match walkIter toks with
      | none => []
      | some (e, rest) => e.toList ++ tokenWalkGo n rest

/-- parseTotRow: strict quintuple grammar first, then the alternative
grammar, then the token-walk fallback. -/
def parseTotRow (content : List Char) : List TotEntry :=
  let strict := scanWith tryStrictAt content
  if strict ≠ [] then strict
  else
    let alt := scanWith tryAltAt content
    if alt ≠ [] then alt
    else
      let toks := splitWsTokens content
      tokenWalkGo (toks.length + 1) toks

example : parseTotRow "77+ 7 B+ 3 21.0".data =
    [⟨some 77, 7, "B+", some ⟨3, 1⟩, some ⟨210, 10⟩⟩] := by decide

-- token-walk path: lowercase-free merged grade and credits token F3
example : parseTotRow "38 0 F3 0.0".data =
    [⟨some 38, 0, "F", some ⟨3, 1⟩, some ⟨0, 10⟩⟩] := by decide

/-! ## recordParser.ts: extractMarkRows -/

/-- The five labelled rows of a student block (source interface MarkRows). -/
structure MarkRows where
  T1 : Option (List Nat)
  O1 : Option (List Nat)
  E1 : Option (List Nat)
  I1 : Option (List Nat)
  TOT : List TotEntry
deriving DecidableEq, Repr

/-- Sum of the total marks of the candidate entries (JS reduce with +). -/
def sumTotals (l : List TotEntry) : Option Int :=
  l.foldl (fun s e => jaddI s e.total) (some 0)

/-- The TOT-candidate preference: strictly more subjects, or the same number
of subjects and a strictly greater total-marks sum. -/
def betterTot (cand cur : List TotEntry) : Bool :=
  cand.length > cur.length ||
    (cand.length == cur.length && jgtI (sumTotals cand) (sumTotals cur))

/-- One line of the extractMarkRows loop: dispatch on the row label after
trimming and normalising whitespace. -/
def stepMarkRows (rows : MarkRows) (line : String) : MarkRows :=
  let t := collapseWs (jsTrim line.data)
  if t.take 2 = ['T', '1'] then
    { rows with T1 := some (parseComponentRow ((t.drop 2).dropWhile isWsC)) }
  else if t.take 2 = ['O', '1'] then
    { rows with O1 := some (parseComponentRow ((t.drop 2).dropWhile isWsC)) }
  else if t.take 2 = ['E', '1'] then
    { rows with E1 := some (parseComponentRow ((t.drop 2).dropWhile isWsC)) }
  else if t.take 2 = ['I', '1'] then
    { rows with I1 := some (parseComponentRow ((t.drop 2).dropWhile isWsC)) }
  else if t.take 3 = ['T', 'O', 'T'] then
    let parsedTot := parseTotRow ((t.drop 3).dropWhile isWsC)
    if betterTot parsedTot rows.TOT then { rows with TOT := parsedTot } else rows
  else rows

/-- extractMarkRows: fold the per-line dispatch over the block lines. -/
def extractMarkRows (lines : List String) : MarkRows :=
  lines.foldl stepMarkRows ⟨none, none, none, none, []⟩

example : (extractMarkRows ["T1 10 20", "TOT 77+ 7 B+ 3 21.0"]).TOT =
    [⟨some 77, 7, "B+", some ⟨3, 1⟩, some ⟨210, 10⟩⟩] := by decide

example : (extractMarkRows ["T1 10 20", "TOT 77+ 7 B+ 3 21.0"]).T1 =
    some [10, 20] := by decide

/-! ## recordParser.ts: subject assembly and backlog classification -/

/-- Subject code to name mapping based on the PDF header. -/
def SUBJECT_NAMES (code : String) : Option String :=
  if code = "10411" then some "Applied Mathematics-I"
  else if code = "10412" then some "Applied Physics"
  else if code = "10413" then some "Applied Chemistry"
  else if code = "10414" then some "Engineering Mechanics"
  else if code = "10415" then some "Basic Electrical & Electronics Engineering"
  else if code = "10416" then some "Applied Physics Lab"
  else if code = "10417" then some "Applied Chemistry Lab"
  else if code = "10418" then some "Engineering Mechanics Lab"
  else if code = "10419" then some "Basic Electrical & Electronics Lab"
  else if code = "10420" then some "Professional Communication Ethics"
  else if code = "10421" then some "Professional Communication Ethics TW"
  else if code = "10422" then some "Engineering Workshop-I"
  else if code = "10423" then some "C Programming"
  else if code = "10424" then some "Induction cum Universal Human Values"
  else none

/-- Subject codes in curriculum order as they appear in the PDF. -/
def SUBJECT_CODES : List String :=
  ["10411", "10412", "10413", "10414", "10415", "10416", "10417",
   "10418", "10419", "10420", "10421", "10422", "10423", "10424"]

def NUM_SUBJECTS : Nat := SUBJECT_CODES.length

/-- Backlog categories (source type KTType). -/
inductive KTType where
  | internal
  | external
  | termWork
  | oral
  | overall
deriving DecidableEq, Repr

/-- The grade/grade-point pair consulted by the backlog classifier
(source parameter totData). -/
structure TotKT where
  grade : String
  gp : Int
deriving DecidableEq, Repr

/-- The four component marks of a subject, null when the row is absent. -/
structure Components where
  termWork : Option Nat
  oral : Option Nat
  external : Option Nat
  internal : Option Nat
deriving DecidableEq, Repr

/-- detectSubjectKTType: null for a passing subject, otherwise the first
zero component in the fixed order external, internal, term work, oral,
falling back to the overall category. -/
def detectSubjectKTType (totData : TotKT) (components : Components) :
    Option KTType :=
  if totData.grade ≠ "F" && totData.gp > 0 then none
  else if components.external = some 0 then some KTType.external
  else if components.internal = some 0 then some KTType.internal
  else if components.termWork = some 0 then some KTType.termWork
  else if components.oral = some 0 then some KTType.oral
  else some KTType.overall

/-- Per-subject marks record (source interface SubjectMarks). -/
structure SubjectMarks where
  termWork : Option Nat
  oral : Option Nat
  external : Option Nat
  internal : Option Nat
  total : Option Int
  gradePoint : Int
  grade : String
  credits : JSNum
  creditPoints : JSNum
  status : String
deriving DecidableEq, Repr

/-- One assembled subject (source interface Subject). -/
structure Subject where
  code : String
  name : String
  marks : SubjectMarks
  isKT : Bool
  ktType : Option KTType
deriving DecidableEq, Repr

/-- JS string-or fallback for the subject-name lookup. -/
def subjectNameOf (code : String) : String :=
  match SUBJECT_NAMES code with
  | some s => if s.data = [] then code else s
  | none => code

/-- parseSubjectsFromRows: one subject per TOT entry, positionally matched
with the curriculum code table, capped at the fixed subject count. -/
def parseSubjectsFromRows (markRows : MarkRows) : List Subject :=
  (markRows.TOT.take NUM_SUBJECTS).enum.map (fun (p : Nat × TotEntry) =>
    let i := p.1
    let totData := p.2
    let code := SUBJECT_CODES.getD i ""
    let termWork := markRows.T1.bind (fun l => l[i]?)
    let oral := markRows.O1.bind (fun l => l[i]?)
    let external := markRows.E1.bind (fun l => l[i]?)
    let internal := markRows.I1.bind (fun l => l[i]?)
    { code := code
      name := subjectNameOf code
      marks :=
        { termWork := termWork
          oral := oral
          external := external
          internal := internal
          total := totData.total
          gradePoint := totData.gp
          grade := totData.grade
          credits := totData.credits
          creditPoints := totData.creditPoints
          status := if totData.grade = "F" then "F" else "P" }
      isKT := totData.grade == "F" || totData.gp == 0
      ktType := detectSubjectKTType ⟨totData.grade, totData.gp⟩
        ⟨termWork, oral, external, internal⟩ })

/-- Per-student backlog summary (source interface KTResult). -/
structure KTResult where
  totalKT : Nat
  internalKT : Nat
  externalKT : Nat
  termWorkKT : Nat
  oralKT : Nat
  failedSubjects : List String
  hasKT : Bool
deriving DecidableEq, Repr

/-- Modelled from the spec: the ktDetector module (the detectKT import of
recordParser.ts) is not among the sources.  Per the spec the backlog
summary is derived from the assembled subjects: aggregated counts by
category, the list of failed subject names, and a has-backlog flag, with
the total count equal to the number of backlog subjects. -/
def detectKT (subjects : List Subject) : KTResult :=
  let kts := subjects.filter (fun s => s.isKT)
  { totalKT := kts.length
    internalKT := (kts.filter (fun s => s.ktType = some KTType.internal)).length
    externalKT := (kts.filter (fun s => s.ktType = some KTType.external)).length
    termWorkKT := (kts.filter (fun s => s.ktType = some KTType.termWork)).length
    oralKT := (kts.filter (fun s => s.ktType = some KTType.oral)).length
    failedSubjects := kts.map (fun s => s.name)
    hasKT := kts.length > 0 }

/-! ## recordParser.ts: parseSummary -/

/-- Case-insensitive prefix test against a lowercase pattern. -/
def ciHasPrefix : List Char → List Char → Bool
  | [], _ => true
  | _ :: _, [] => false
  | p :: ps, c :: cs => c.toLower = p && ciHasPrefix ps cs

/-- Leftmost-match regex search: try the matcher at every position from the
left, including the end-of-string position. -/
def firstMatch {α : Type} (f : List Char → Option α) : List Char → Option α
  | [] => f []
  | c :: rest =>
      match f (c :: rest) with
      | some a => some a
      | none => firstMatch f rest

/-- Match at one position: the MARKS keyword, optional parenthesis, a
number token, optional closing parenthesis, and a PASS or FAIL keyword
(case-insensitive).  Returns the parsed number and whether it is a pass. -/
def tryMarksResultAt (cs : List Char) : Option (JSNum × Bool) :=
  if ciHasPrefix "marks".data cs then
    let r1 := (cs.drop 5).dropWhile isWsC
    let r2 := match r1 with
      | '(' :: t => t
      | _ => r1
    let r3 := r2.dropWhile isWsC
    let num := r3.takeWhile isNumDotC
    if num = [] then none else
    let r4 := (r3.dropWhile isNumDotC).dropWhile isWsC
    let r5 := match r4 with
      | ')' :: t => t
      | _ => r4
    let r6 := r5.dropWhile isWsC
    if ciHasPrefix "pass".data r6 then some (parseFloatQ num, true)
    else if ciHasPrefix "fail".data r6 then some (parseFloatQ num, false)
    else none
  else none

/-- Match at one position: optional parenthesis, number, optional closing
parenthesis, PASS or FAIL keyword. -/
def tryParenResultAt (cs : List Char) : Option (JSNum × Bool) :=
  let r2 := match cs with
    | '(' :: t => t
    | _ => cs
  let r3 := r2.dropWhile isWsC
  let num := r3.takeWhile isNumDotC
  if num = [] then none else
  let r4 := (r3.dropWhile isNumDotC).dropWhile isWsC
  let r5 := match r4 with
    | ')' :: t => t
    | _ => r4
  let r6 := r5.dropWhile isWsC
  if ciHasPrefix "pass".data r6 then some (parseFloatQ num, true)
  else if ciHasPrefix "fail".data r6 then some (parseFloatQ num, false)
  else none

/-- Match at one position of the end-anchored SGPA pattern: a number token,
whitespace, an optional SGPA or CGPA word, whitespace, end of line. -/
def trySgpaAt (cs : List Char) : Option JSNum :=
  let num := cs.takeWhile isNumDotC
  if num = [] then none else
  let w1 := (cs.dropWhile isNumDotC).dropWhile isWsC
  if w1 = [] then some (parseFloatQ num)
  else if (ciHasPrefix "sgpa".data w1 || ciHasPrefix "cgpa".data w1)
      && (w1.drop 4).dropWhile isWsC = [] then some (parseFloatQ num)
  else none

/-- Case-insensitive substring test for the CGPA marker (JS includes on the
uppercased line). -/
def containsCgpa (cs : List Char) : Bool :=
  (firstMatch (fun r => if ciHasPrefix "cgpa".data r then some () else none) cs).isSome

/-- Running state of the parseSummary loop. -/
structure SummaryAcc where
  totalMarks : JSNum
  result : String
  sgpa : Q
  cgpa : Option Q
deriving DecidableEq, Repr

/-- JS strict-equality-to-zero test on a possibly NaN number. -/
def jsIsZero : JSNum → Bool
  | some v => v.n = 0
  | none => false

/-- One line of the parseSummary loop. -/
def stepSummary (acc : SummaryAcc) (line : String) : SummaryAcc :=
  let trimmed := collapseWs (jsTrim line.data)
  let acc1 :=
    match firstMatch tryMarksResultAt trimmed with
    | some (v, isPass) =>
        { acc with totalMarks := v, result := if isPass then "PASS" else "FAILED" }
    | none => acc
  let acc2 :=
    match firstMatch tryParenResultAt trimmed with
    | some (v, isPass) =>
        if jsIsZero acc1.totalMarks then
          { acc1 with totalMarks := v, result := if isPass then "PASS" else "FAILED" }
        else acc1
    | none => acc1
  match firstMatch trySgpaAt trimmed with
  | some (some v) =>
      if !qLtB v ⟨0, 1⟩ && !qLtB ⟨10, 1⟩ v then
        if containsCgpa trimmed then { acc2 with cgpa := some v }
        else { acc2 with sgpa := v }
      else acc2
  | _ => acc2

/-- Match at one position of the TOT fallback quintuple (digits, digits,
grade letters, number, number); yields the leading total. -/
def trySumAt (cs : List Char) : Option (Nat × List Char) :=
  let ds := cs.takeWhile isDigitC
  if ds = [] then none else
  let r1 := cs.dropWhile isDigitC
  if r1.takeWhile isWsC = [] then none else
  let a := r1.dropWhile isWsC
  let ds2 := a.takeWhile isDigitC
  if ds2 = [] then none else
  let b := a.dropWhile isDigitC
  if b.takeWhile isWsC = [] then none else
  let c := b.dropWhile isWsC
  let gr := c.takeWhile isGradeC
  if gr = [] then none else
  let d := c.dropWhile isGradeC
  if d.takeWhile isWsC = [] then none else
  let e := d.dropWhile isWsC
  let n1 := e.takeWhile isNumDotC
  if n1 = [] then none else
  let f := e.dropWhile isNumDotC
  if f.takeWhile isWsC = [] then none else
  let g := f.dropWhile isWsC
  let n2 := g.takeWhile isNumDotC
  if n2 = [] then none else
  some (digitsToNat ds, g.dropWhile isNumDotC)

/-- parseSummary: fold the per-line matches, then fall back to summing the
first TOT line when no total was found. -/
def parseSummary (lines : List String) : SummaryAcc :=
  let acc := lines.foldl stepSummary ⟨some ⟨0, 1⟩, "FAILED", ⟨0, 1⟩, none⟩
  if jsIsZero acc.totalMarks then
    match lines.find? (fun l => l.data.take 3 = ['T', 'O', 'T']) with
    | some l =>
        let s : Nat := (scanWith trySumAt l.data).foldl (fun a b => a + b) 0
        if s > 0 then { acc with totalMarks := some ⟨(s : Int), 1⟩ } else acc
    | none => acc
  else acc

example : (parseSummary ["TOT 77+ 7 B+ 3 21.0", "MARKS (554) PASS 8.5 SGPA"]).totalMarks
    = some ⟨554, 1⟩ := by decide

example : (parseSummary ["TOT 77+ 7 B+ 3 21.0", "MARKS (554) PASS 8.5 SGPA"]).sgpa
    = ⟨85, 10⟩ := by decide

example : (parseSummary ["TOT 77+ 7 B+ 3 21.0", "MARKS (554) PASS 8.5 SGPA"]).result
    = "PASS" := by decide

/-! ## recordParser.ts: header extraction -/

/-- JS regex word characters (letters, digits, underscore). -/
def isWordC (c : Char) : Bool := isAlphaC c || isDigitC c || c = '_'

/-- Word-boundary test between a previous character (none at string start)
and the rest of the string. -/
def boundaryAt (prev : Option Char) (cs : List Char) : Bool :=
  let l := match prev with
    | some c => isWordC c
    | none => false
  let r := match cs with
    | c :: _ => isWordC c
    | [] => false
  l != r

/-- Leftmost match of a boundary-aware matcher, threading the previous
character. -/
def searchB {α : Type} (f : Option Char → List Char → Option α) :
    Option Char → List Char → Option α
  | prev, [] => f prev []
  | prev, c :: rest =>
      match f prev (c :: rest) with
      | some a => some a
      | none => searchB f (some c) rest

/-- Leftmost match of a boundary-aware matcher together with its index. -/
def searchBIdx {α : Type} (f : Option Char → List Char → Option α) :
    Option Char → Nat → List Char → Option (Nat × α)
  | prev, i, [] => (f prev []).map (fun a => (i, a))
  | prev, i, c :: rest =>
      match f prev (c :: rest) with
      | some a => some (i, a)
      | none => searchBIdx f (some c) (i + 1) rest

/-- Match at one position of a boundary, optional whitespace, one of the
given keywords (patterns given lowercase, compared case-insensitively), and
a closing word boundary reachable through optional whitespace (equivalently:
the keyword is not followed directly by a word character).  Returns the
matched keyword characters as they appear in the input. -/
def tryKeywordAt (kws : List (List Char)) (prev : Option Char)
    (cs : List Char) : Option (List Char) :=
  if boundaryAt prev cs then kwTry kws (cs.dropWhile isWsC) else none
where
  kwTry : List (List Char) → List Char → Option (List Char)
    | [], _ => none
    | k :: ks, a =>
        if ciHasPrefix k a &&
            (match (a.drop k.length).head? with
             | some c => !isWordC c
             | none => true) then
          some (a.take k.length)
        else kwTry ks a

/-- Match of the header seat-number pattern: optional whitespace then seven
digits then optional whitespace.  Returns the seat digits, the length of
the whole match, and the trimmed remainder of the line. -/
def seatMatchOf (cs : List Char) : Option (List Char × Nat × List Char) :=
  let w := cs.takeWhile isWsC
  let r1 := cs.dropWhile isWsC
  let ds := r1.takeWhile isDigitC
  if ds.length < 7 then none
  else
    let seat := ds.take 7
    let after7 := r1.drop 7
    let w2 := after7.takeWhile isWsC
    some (seat, w.length + 7 + w2.length, jsTrim (after7.dropWhile isWsC))

/-- JS String.prototype.substring with its argument swapping and clamping. -/
def jsSubstring (cs : List Char) (a b : Nat) : List Char :=
  let lo := min a b
  let hi := min (max a b) cs.length
  (cs.drop lo).take (hi - lo)

/-- Greedy continuation of the uppercase-word group of the record-start
pattern: as many further whitespace-then-uppercase-word pieces as possible,
returning the consumed characters.  Fuel equal to the input length
suffices since every step consumes at least two characters. -/
def ucWordsTailGo : Nat → List Char → List Char
  | 0, _ => []
  | Nat.succ n, cs =>
      let w := cs.takeWhile isWsC
      if w = [] then []
      else
        let b := cs.dropWhile isWsC
        let u := b.takeWhile isUpperC
        if u = [] then [] else w ++ u ++ ucWordsTailGo n (b.drop u.length)

/-- Capture group two of the record-start pattern: seven digits (exactly, a
longer digit run fails the following required whitespace), whitespace, then
a sequence of uppercase words. -/
def seatNameGroup2 (cs : List Char) : Option (List Char) :=
  let r1 := cs.dropWhile isWsC
  let ds := r1.takeWhile isDigitC
  if ds.length = 7 then
    let rest := r1.drop 7
    if rest.takeWhile isWsC = [] then none
    else
      let a := rest.dropWhile isWsC
      let u1 := a.takeWhile isUpperC
      if u1 = [] then none
      else some (u1 ++ ucWordsTailGo a.length (a.drop u1.length))
  else none

/-- isSeatNumberLine: the record-start predicate of the block segmenter; a
seven-digit seat number followed by an uppercase name of more than five
characters. -/
def isSeatNumberLine (line : String) : Bool :=
  match seatNameGroup2 line.data with
  | some g2 => (jsTrim g2).length > 5
  | none => false

/-- Character class of the lazy name group (letters or whitespace,
case-insensitive source class). -/
def isNameC (c : Char) : Bool := isAlphaC c || isWsC c

/-- Lookahead of the name pattern: required whitespace then a status or
gender keyword, a digit, or an opening parenthesis. -/
def nameLookahead (rest : List Char) : Bool :=
  if rest.takeWhile isWsC = [] then false
  else
    let a := rest.dropWhile isWsC
    ciHasPrefix "regular".data a || ciHasPrefix "atkt".data a ||
    ciHasPrefix "male".data a || ciHasPrefix "female".data a ||
    (match a with
     | c :: _ => isDigitC c || c = '('
     | [] => false)

/-- Lazy extension of the name group: the number of further characters
consumed before the shortest position whose remainder satisfies the
lookahead; none when no such position exists. -/
def namePartLenGo : List Char → Option Nat
  | [] => if nameLookahead [] then some 0 else none
  | r :: rs =>
      if nameLookahead (r :: rs) then some 0
      else if isNameC r then (namePartLenGo rs).map (fun k => k + 1) else none

/-- The anchored lazy name pattern: a letter, at least one more letter or
space, extended lazily until the keyword/digit/parenthesis lookahead. -/
def namePartMatch (cs : List Char) : Option (List Char) :=
  match cs with
  | c0 :: c1 :: rest =>
      if isAlphaC c0 && isNameC c1 then
        (namePartLenGo rest).map (fun k => c0 :: c1 :: rest.take k)
      else none
  | _ => none

/-- Title-casing of one name word. -/
def capitalizeWord : List Char → List Char
  | [] => []
  | c :: rest => c.toUpper :: rest.map Char.toLower

/-- cleanName: strip non-letter characters, normalise whitespace, and
title-case every word. -/
def cleanName (name : List Char) : String :=
  let kept := name.filter (fun c => isAlphaC c || isWsC c)
  let words := ((collapseWs kept).splitOn ' ').filter (fun w => w ≠ [])
  String.mk (List.intercalate [' '] (words.map capitalizeWord))

example : cleanName "  DISHA  ATMARAM+3 MASAYE ".data = "Disha Atmaram Masaye" := by
  decide

/-! ## recordParser.ts: registration-number (ERN) recovery -/

/-- isValidErn: the trimmed string is MU followed by exactly sixteen
digits. -/
def isValidErn (ern : String) : Bool :=
  match jsTrim ern.data with
  | 'M' :: 'U' :: ds => ds.length = 16 && ds.all isDigitC
  | _ => false

/-- Match of MU followed by sixteen digits at the current position,
returning the matched characters. -/
def mu16At (cs : List Char) : Option (List Char) :=
  match cs with
  | 'M' :: 'U' :: rest =>
      let ds := rest.take 16
      if ds.length = 16 && ds.all isDigitC then some ('M' :: 'U' :: ds) else none
  | _ => none

/-- Match of MU followed by sixteen digits, also returning the suffix after
the digits. -/
def mu16AtR (cs : List Char) : Option (List Char × List Char) :=
  match cs with
  | 'M' :: 'U' :: rest =>
      let ds := rest.take 16
      if ds.length = 16 && ds.all isDigitC then
        some ('M' :: 'U' :: ds, rest.drop 16)
      else none
  | _ => none

/-- ERN pattern one at one position: optional opening parenthesis, optional
whitespace, MU and sixteen digits. -/
def tryFullErnAt (cs : List Char) : Option (List Char) :=
  match cs with
  | '(' :: t => mu16At (t.dropWhile isWsC)
  | _ => mu16At (cs.dropWhile isWsC)

/-- ERN pattern two at one position: like pattern one but requiring the
digits to be followed (through optional whitespace) by whitespace, the end
of the line, or a closing parenthesis. -/
def tryErnOpenAt (cs : List Char) : Option (List Char) :=
  let core (u : List Char) : Option (List Char) :=
    match mu16AtR (u.dropWhile isWsC) with
    | some (g, suf) =>
        match suf with
        | [] => some g
        | c :: _ => if isWsC c || c = ')' then some g else none
    | none => none
  match cs with
  | '(' :: t => core t
  | _ => core cs

/-- ERN pattern three at one position: optional parenthesis and whitespace,
MU, a run of one to fifteen digits ending the digit run, then optional
whitespace and the end of the line or a closing parenthesis.  Returns the
split prefix MU plus digits. -/
def trySplitErnAt (cs : List Char) : Option (List Char) :=
  let core (u : List Char) : Option (List Char) :=
    match u.dropWhile isWsC with
    | 'M' :: 'U' :: rest =>
        let ds := rest.takeWhile isDigitC
        if ds = [] || ds.length > 15 then none
        else
          let t := (rest.drop ds.length).dropWhile isWsC
          if t = [] || t.head? = some ')' then some ('M' :: 'U' :: ds) else none
    | _ => none
  match cs with
  | '(' :: t => core t
  | _ => core cs

/-- Continuation digits of a split ERN on the following line: leading
digits (at most sixteen) of the trimmed line. -/
def ernContinuation (next : List Char) : Option (List Char) :=
  let t := jsTrim next
  let ds := t.takeWhile isDigitC
  if ds = [] then none else some (ds.take 16)

/-- Pattern one applied to a (trimmed) line with the validity guard of the
source. -/
def ernP1 (l : List Char) : Option String :=
  match firstMatch tryFullErnAt l with
  | some g => if isValidErn (String.mk g) then some (String.mk g) else none
  | none => none

/-- Pattern two applied to a line with the validity guard. -/
def ernP2 (l : List Char) : Option String :=
  match firstMatch tryErnOpenAt l with
  | some g => if isValidErn (String.mk g) then some (String.mk g) else none
  | none => none

/-- Pattern three: split prefix on this line joined with the digit
continuation of the next line, accepted only when the assembly is a valid
ERN. -/
def ernP3 (l : List Char) (next : Option (List Char)) : Option String :=
  match firstMatch trySplitErnAt l with
  | some g =>
      match next with
      | some nl =>
          match ernContinuation nl with
          | some ds2 =>
              if isValidErn (String.mk (g ++ ds2)) then
                some (String.mk (g ++ ds2))
              else none
          | none => none
      | none => none
  | none => none

/-- The first-five-lines ERN search: patterns one, two and three per line,
in order, stopping at the first hit. -/
def searchErnWindow : Nat → List String → Option String
  | 0, _ => none
  | _, [] => none
  | Nat.succ k, l :: rest =>
      match ernP1 (jsTrim l.data) with
      | some e => some e
      | none =>
          match ernP2 (jsTrim l.data) with
          | some e => some e
          | none =>
              match ernP3 (jsTrim l.data) ((rest.head?).map (fun s => s.data)) with
              | some e => some e
              | none => searchErnWindow k rest

/-- The broader pattern-one search over the remaining lines. -/
def searchErnBroad : List String → Option String
  | [] => none
  | l :: rest =>
      match ernP1 (jsTrim l.data) with
      | some e => some e
      | none => searchErnBroad rest

/-- The whole in-block ERN search of parseHeaderLine: the first five lines
with all three patterns, then the rest of the block with pattern one. -/
def findErnInLines (lines : List String) : Option String :=
  match searchErnWindow 5 lines with
  | some e => some e
  | none => searchErnBroad (lines.drop 5)

example : findErnInLines ["1402781 X", "(MU0341120250220", "778)"] =
    some "MU0341120250220778" := by decide

/-- The pending-ERN fallback of parseHeaderLine: the in-block search wins;
otherwise a valid pending ERN from the previous block is used. -/
def combineErn (found : Option String) (pendingErn : Option String) :
    Option String :=
  match found with
  | some e => some e
  | none =>
      match pendingErn with
      | some p => if isValidErn p then some p else none
      | none => none

/-! ## recordParser.ts: college extraction -/

/-- Lazy content of the college pattern: the number of further characters
before the first position where only whitespace remains or an opening
parenthesis follows. -/
def collegeLen : List Char → Nat
  | [] => 0
  | r :: rs => if (r :: rs).all isWsC || r = '(' then 0 else 1 + collegeLen rs

/-- Match at one position of the college pattern: MU-, digits, a colon,
optional whitespace, then the shortest nonempty content followed by only
whitespace or an opening parenthesis. -/
def tryCollegeAt (cs : List Char) : Option (List Char) :=
  if ciHasPrefix "mu-".data cs then
    let r := cs.drop 3
    let ds := r.takeWhile isDigitC
    if ds = [] then none
    else
      match r.drop ds.length with
      | ':' :: t =>
          (match t.dropWhile isWsC with
           | c :: rest => some (c :: rest.take (collegeLen rest))
           | [] => none)
      | _ => none
  else none

/-- College name of one line: the trimmed capture of the college pattern. -/
def collegeOf (line : String) : Option String :=
  (firstMatch tryCollegeAt (jsTrim line.data)).map (fun g => String.mk (jsTrim g))

/-- The college search of parseHeaderLine over the first five lines. -/
def collegeFromLines (lines : List String) : String :=
  (((lines.take 5).filterMap collegeOf).head?).getD ""

example : collegeFromLines ["1402781 X", "MU-341: Some College (Mumbai)"] =
    "Some College" := by decide

/-! ## recordParser.ts: parseHeaderLine -/

/-- The extracted header fields (source return type of parseHeaderLine). -/
structure Header where
  seatNumber : String
  name : String
  gender : String
  ern : Option String
  college : String
  status : String
deriving DecidableEq, Repr

/-- parseHeaderLine: seat number from the first line (rejecting the block
when absent), status and gender keywords, the name between the seat number
and the status keyword (with the lazy-pattern and word-collection
fallbacks), the ERN search with the pending fallback, and the college
line. -/
def parseHeaderLine (lines : List String) (pendingErn : Option String) :
    Option Header :=
  match lines with
  | [] => none
  | firstLine :: _ =>
      match seatMatchOf firstLine.data with
      | none => none
      | some (seat, seatLen, afterSeat) =>
          let statusM := searchBIdx
            (tryKeywordAt ["regular".data, "atkt".data]) none 0 firstLine.data
          let status := match statusM with
            | some (_, kw) => String.mk (jsTrim kw)
            | none => "Regular"
          let gender := match searchB
              (tryKeywordAt ["male".data, "female".data]) none firstLine.data with
            | some kw => String.mk ((jsTrim kw).map Char.toUpper)
            | none => ""
          let name := match statusM with
            | some (idx, _) => jsTrim (jsSubstring firstLine.data seatLen idx)
            | none =>
                match namePartMatch afterSeat with
                | some nm => jsTrim nm
                | none =>
                    List.intercalate [' ']
                      (((splitWsTokens afterSeat).filter
                        (fun w => w ≠ [] && w.all isAlphaC)).take 3)
          some
            { seatNumber := String.mk seat
              name := cleanName name
              gender := gender
              ern := combineErn (findErnInLines lines) pendingErn
              college := collegeFromLines lines
              status := status }

example : (parseHeaderLine ["1402781 DISHA ATMARAM MASAYE Regular FEMALE", "x", "y"]
    none).map Header.name = some "Disha Atmaram Masaye" := by decide

example : (parseHeaderLine ["1402781 DISHA MASAYE Regular (MU0341120250220778)", "x", "y"]
    none).map Header.ern = some (some "MU0341120250220778") := by decide

example : parseHeaderLine ["NO SEAT HERE"] none = none := by decide

/-! ## recordParser.ts: block segmentation -/

/-- Raw text block of one student (source interface RawStudentBlock). -/
structure RawStudentBlock where
  text : String
  pageNumber : Nat
  lineStart : Int
  lineEnd : Int
  pendingErn : Option String := none
deriving DecidableEq, Repr

/-- JS join with newlines. -/
def joinNl (ls : List String) : String := String.intercalate "\n" ls

/-- The main accumulation loop of findStudentBlocks: a new block starts at
every record-start line; other lines extend the current block; lines before
the first record-start line are dropped. -/
def findBlocksGo (pageNumber : Nat) (total : Nat) :
    List String → Nat → List String → Int → List RawStudentBlock
  | [], _, cur, bstart =>
      if cur ≠ [] && bstart ≥ 0 then
        [{ text := joinNl cur, pageNumber := pageNumber,
           lineStart := bstart, lineEnd := (total : Int) - 1 }]
      else []
  | line :: rest, i, cur, bstart =>
      if isSeatNumberLine line then
        let tl := findBlocksGo pageNumber total rest (i + 1) [line] (i : Int)
        if cur ≠ [] && bstart ≥ 0 then
          { text := joinNl cur, pageNumber := pageNumber,
            lineStart := bstart, lineEnd := (i : Int) - 1 } :: tl
        else tl
      else
        if bstart ≥ 0 then
          findBlocksGo pageNumber total rest (i + 1) (cur ++ [line]) bstart
        else findBlocksGo pageNumber total rest (i + 1) cur bstart

def findBlocksMain (lines : List String) (pageNumber : Nat) :
    List RawStudentBlock :=
  findBlocksGo pageNumber lines.length lines 0 [] (-1)

/-- The trailing-ERN pattern at one position: an optional opening
parenthesis directly followed by MU and sixteen digits (no whitespace is
admitted by this pattern, unlike the header patterns). -/
def tryTrailingErnAt (cs : List Char) : Option (List Char) :=
  match cs with
  | '(' :: t => mu16At t
  | _ => mu16At cs

/-- First valid trailing ERN among the given lines. -/
def firstTrailingErn : List (List Char) → Option String
  | [] => none
  | l :: rest =>
      match firstMatch tryTrailingErnAt l with
      | some g =>
          if isValidErn (String.mk g) then some (String.mk g)
          else firstTrailingErn rest
      | none => firstTrailingErn rest

/-- trailingErn: the split-ERN post-processing scan of findStudentBlocks;
only lines from index max 10 (length minus 8) onwards are examined. -/
def trailingErn (text : String) : Option String :=
  let ls := text.data.splitOn '\n'
  firstTrailingErn (ls.drop (max 10 (ls.length - 8)))

/-- The post-processing pass: a trailing ERN found in a block is attached
as the pendingErn of the following block. -/
def attachPendingErns (bs : List RawStudentBlock) : List RawStudentBlock :=
  match bs with
  | [] => []
  | b :: rest =>
      b :: (bs.zip rest).map (fun pc =>
        match trailingErn pc.1.text with
        | some e => { pc.2 with pendingErn := some e }
        | none => pc.2)

/-- findStudentBlocks: segmentation followed by the pending-ERN
post-processing. -/
def findStudentBlocks (lines : List String) (pageNumber : Nat) :
    List RawStudentBlock :=
  attachPendingErns (findBlocksMain lines pageNumber)

/-! ## recordParser.ts: parseStudentBlock -/

/-- Per-student backlog summary and record (source interface
StudentRecord). -/
structure StudentRecord where
  seatNumber : String
  name : String
  gender : String
  ern : Option String
  college : String
  status : String
  subjects : List Subject
  totalMarks : JSNum
  maxMarks : Q
  result : String
  sgpa : Q
  cgpa : Option Q
  totalCredits : JSNum
  totalCreditPoints : JSNum
  kt : KTResult
deriving DecidableEq, Repr

/-- The line preprocessing of parseStudentBlock: split on newlines, trim,
drop empty lines. -/
def procLines (text : String) : List String :=
  ((text.data.splitOn '\n').map jsTrim).filterMap
    (fun l => if l = [] then none else some (String.mk l))

/-- parseStudentBlock: reject blocks of fewer than three nonempty lines or
without a seat number; otherwise assemble the record from the header, the
mark rows, the subjects and the summary. -/
def parseStudentBlock (block : RawStudentBlock) : Option StudentRecord :=
  let lines := procLines block.text
  if lines.length < 3 then none
  else
    match parseHeaderLine lines block.pendingErn with
    | none => none
    | some header =>
        let markRows := extractMarkRows lines
        let subjects := parseSubjectsFromRows markRows
        let summary := parseSummary lines
        let subjTotal : Option Int :=
          subjects.foldl (fun s x => jaddI s x.marks.total) (some 0)
        let totalMarks := jsOrNum summary.totalMarks
          (subjTotal.map (fun i => (⟨i, 1⟩ : Q)))
        let totalCredits :=
          subjects.foldl (fun s x => jadd s x.marks.credits) (some ⟨0, 1⟩)
        let totalCreditPoints :=
          subjects.foldl (fun s x => jadd s x.marks.creditPoints) (some ⟨0, 1⟩)
        some
          { seatNumber := header.seatNumber
            name := header.name
            gender := header.gender
            ern := header.ern
            college := header.college
            status := header.status
            subjects := subjects
            totalMarks := totalMarks
            maxMarks := ⟨800, 1⟩
            result := summary.result
            sgpa := summary.sgpa
            cgpa := summary.cgpa
            totalCredits := totalCredits
            totalCreditPoints := totalCreditPoints
            kt := detectKT subjects }

example :
    (findStudentBlocks
      ["1402781 DISHA ATMARAM MASAYE Regular", "T1 10", "1402782 RAHUL KUMAR SHARMA Regular"]
      3).length = 2 := by decide

example :
    ((parseStudentBlock
      ⟨"1402781 DISHA MASAYE Regular\nT1 10 20\nTOT 77+ 7 B+ 3 21.0", 1, 0, 2, none⟩).map
      (fun r => r.seatNumber)) = some "1402781" := by decide

/-! ## validator.ts -/

structure ValidationError where
  field : String
  message : String
  studentSeat : Option String := none
deriving DecidableEq, Repr

structure ValidationWarning where
  field : String
  message : String
  studentSeat : Option String := none
deriving DecidableEq, Repr

structure ValidationResult where
  valid : Bool
  errors : List ValidationError
  warnings : List ValidationWarning
deriving DecidableEq, Repr

/-- Rendering of an exact fraction inside a message string; stands in for
JS number formatting (no claim depends on message number formatting). -/
def qStr (q : Q) : String := toString q.n ++ "/" ++ toString q.d

/-- Rendering of a possibly NaN number inside a message string. -/
def jsNumStr : JSNum → String
  | some v => qStr v
  | none => "NaN"

/-- The seat-number format test (seven digits). -/
def seat7 (s : String) : Bool := s.data.length = 7 && s.data.all isDigitC

/-- Grade to grade-point mapping of the validator. -/
def gradeToGP (grade : String) : Option Int :=
  if grade = "O" then some 10
  else if grade = "A+" then some 9
  else if grade = "A" then some 8
  else if grade = "B+" then some 7
  else if grade = "B" then some 6
  else if grade = "C" then some 5
  else if grade = "D" then some 4
  else if grade = "F" then some 0
  else none

/-- The credit-points consistency test: distance from credits times grade
point above the 0.1 tolerance; comparisons with NaN are false. -/
def cpMismatch (credits cp : JSNum) (gp : Int) : Bool :=
  match credits, cp with
  | some c, some p => qLtB ⟨1, 10⟩ (qAbs (qSub p (qMul c ⟨gp, 1⟩)))
  | _, _ => false

/-- validateSubject: grade/grade-point consistency and credit-points
consistency, both producing warnings only. -/
def validateSubject (subject : Subject) (studentSeat : String) :
    ValidationResult :=
  let gpWarns : List ValidationWarning :=
    match gradeToGP subject.marks.grade with
    | some expectedGP =>
        if subject.marks.gradePoint ≠ expectedGP then
          [⟨"subject." ++ subject.code ++ ".gradePoint",
            "Grade " ++ subject.marks.grade ++ " does not match GP " ++
              toString subject.marks.gradePoint, some studentSeat⟩]
        else []
    | none => []
  let cpWarns : List ValidationWarning :=
    if cpMismatch subject.marks.credits subject.marks.creditPoints
        subject.marks.gradePoint then
      [⟨"subject." ++ subject.code ++ ".creditPoints",
        "Credit points " ++ jsNumStr subject.marks.creditPoints ++
          " does not match expected", some studentSeat⟩]
    else []
  ⟨true, [], gpWarns ++ cpWarns⟩

/-- validateStudent: seat-number format and name presence are errors; the
marks range, SGPA range, pass-with-backlog and per-subject checks are
warnings. -/
def validateStudent (student : StudentRecord) : ValidationResult :=
  let seatErrs : List ValidationError :=
    if student.seatNumber = "" || !seat7 student.seatNumber then
      [⟨"seatNumber", "Invalid seat number format (expected 7 digits)",
        some student.seatNumber⟩]
    else []
  let nameErrs : List ValidationError :=
    if student.name = "" || (jsTrim student.name.data).length < 2 then
      [⟨"name", "Student name is required", some student.seatNumber⟩]
    else []
  let tmWarns : List ValidationWarning :=
    if jltB student.totalMarks (some ⟨0, 1⟩) ||
        jgtB student.totalMarks (some student.maxMarks) then
      [⟨"totalMarks", "Total marks " ++ jsNumStr student.totalMarks ++
        " may be invalid (max: " ++ qStr student.maxMarks ++ ")",
        some student.seatNumber⟩]
    else []
  let sgpaWarns : List ValidationWarning :=
    if qLtB student.sgpa ⟨0, 1⟩ || qLtB ⟨10, 1⟩ student.sgpa then
      [⟨"sgpa", "SGPA " ++ qStr student.sgpa ++ " is out of valid range (0-10)",
        some student.seatNumber⟩]
    else []
  let resWarns : List ValidationWarning :=
    if student.result = "PASS" && student.kt.hasKT then
      [⟨"result", "Student marked as PASS but has KT subjects",
        some student.seatNumber⟩]
    else []
  let subjResults := student.subjects.map
    (fun s => validateSubject s student.seatNumber)
  let errors := seatErrs ++ nameErrs ++ subjResults.flatMap (fun r => r.errors)
  let warnings := tmWarns ++ sgpaWarns ++ resWarns ++
    subjResults.flatMap (fun r => r.warnings)
  ⟨errors.isEmpty, errors, warnings⟩

/-- The seen-set loop of findDuplicates. -/
def findDupGo : List String → List StudentRecord → List String
  | _, [] => []
  | seen, s :: rest =>
      if s.seatNumber ∈ seen then s.seatNumber :: findDupGo seen rest
      else findDupGo (seen ++ [s.seatNumber]) rest

/-- findDuplicates: seat numbers already seen earlier in the list. -/
def findDuplicates (students : List StudentRecord) : List String :=
  findDupGo [] students

/-- The duplicate-seat-number error of validateParsedResult. -/
def dupError (dup : String) : ValidationError :=
  ⟨"seatNumber", "Duplicate seat number found: " ++ dup, none⟩

/-- validateParsedResult: duplicate errors first, then the per-student
results. -/
def validateParsedResult (students : List StudentRecord) : ValidationResult :=
  let dupErrs := (findDuplicates students).map dupError
  let results := students.map validateStudent
  let errors := dupErrs ++ results.flatMap (fun r => r.errors)
  let warnings := results.flatMap (fun r => r.warnings)
  ⟨errors.isEmpty, errors, warnings⟩

/-! ## pdfExtractor: reconstructTableLines -/

/-- One positioned text fragment; x and y are the fourth and fifth entries
of the pdfjs transform, width and height the item dimensions. -/
structure TextItem where
  str : String
  x : Q
  y : Q
  width : Q
  height : Q
deriving DecidableEq, Repr

/-- Stable insertion before the first element not strictly preceding the
new one. -/
def insertOrd {α : Type} (lt : α → α → Bool) (x : α) : List α → List α
  | [] => [x]
  | y :: ys => if lt y x then y :: insertOrd lt x ys else x :: y :: ys

/-- Stable insertion sort with the given strict precedence (models the JS
comparator sorts, which are stable). -/
def sortByLt {α : Type} (lt : α → α → Bool) : List α → List α
  | [] => []
  | x :: xs => insertOrd lt x (sortByLt lt xs)

/-- The y quantisation: divide by the threshold 3, round, multiply back. -/
def quantY (it : TextItem) : Int := jsRound (qDivNat it.y 3) * 3

/-- The x column bin: divide by 10, round, multiply back. -/
def binX (it : TextItem) : Int := jsRound (qDivNat it.x 10) * 10

/-- First-occurrence key order of the y-bucket map (JS Map preserves
insertion order). -/
def groupKeys (items : List TextItem) : List Int :=
  items.foldl (fun ks it =>
    let k := quantY it
    if k ∈ ks then ks else ks ++ [k]) []

/-- The items of one y bucket, in input order. -/
def groupItems (items : List TextItem) (k : Int) : List TextItem :=
  items.filter (fun it => quantY it == k)

/-- The de-duplicated, ascending column bins of the page. -/
def columnsOf (items : List TextItem) : List Int :=
  sortByLt (fun a b => a < b)
    (items.foldl (fun ks it =>
      let k := binX it
      if k ∈ ks then ks else ks ++ [k]) [])

/-- The bucket keys sorted top to bottom (descending y). -/
def lineYs (items : List TextItem) : List Int :=
  sortByLt (fun a b => a > b) (groupKeys items)

/-- The items of one row ordered left to right by x. -/
def rowItems (items : List TextItem) (k : Int) : List TextItem :=
  sortByLt (fun a b => qLtB a.x b.x) (groupItems items k)

/-- Append a string to the entry at one index of the column-value list. -/
def setAppend : List String → Nat → String → List String
  | [], _, _ => []
  | v :: vs, 0, s => (v ++ s) :: vs
  | v :: vs, Nat.succ i, s => v :: setAppend vs i s

/-- Render one row: distribute the x-sorted fragments over the column
bins, join the nonempty columns with tabs, and drop blank lines. -/
def renderRow (items : List TextItem) (cols : List Int) (k : Int) :
    Option String :=
  let sorted := rowItems items k
  let colVals := sorted.foldl (fun (acc : List String) it =>
      let idx := cols.indexOf (binX it)
      if idx < cols.length then
        setAppend acc idx (String.mk (jsTrim it.str.data))
      else acc)
    (cols.map (fun _ => ""))
  let line := String.intercalate "\t"
    (colVals.filter (fun v => jsTrim v.data ≠ []))
  if jsTrim line.data = [] then none else some line

/-- reconstructTableLines: group the fragments by quantised y, order the
rows top to bottom, and render each row left to right. -/
def reconstructTableLines (items : List TextItem) : List String :=
  if items = [] then []
  else (lineYs items).filterMap (renderRow items (columnsOf items))

example : reconstructTableLines [] = [] := by decide

example : reconstructTableLines
    [⟨"B", ⟨100, 1⟩, ⟨10, 1⟩, ⟨5, 1⟩, ⟨5, 1⟩⟩,
     ⟨"A", ⟨0, 1⟩, ⟨20, 1⟩, ⟨5, 1⟩, ⟨5, 1⟩⟩] = ["A", "B"] := by decide

/-! ## Spec-modelled pipeline de-duplication -/

/-- The seen-set loop of the output de-duplication. -/
def dedupeGo : List String → List StudentRecord → List StudentRecord
  | _, [] => []
  | seen, s :: rest =>
      if s.seatNumber ∈ seen then dedupeGo seen rest
      else s :: dedupeGo (seen ++ [s.seatNumber]) rest

/-- Modelled from the spec: the pipeline orchestration that streams records
into a running de-duplication set keyed by seat number is not among the
sources (the web app delegates parsing to an external service).  Per the
spec, the first occurrence of a seat number wins and later occurrences are
excluded from the output and the analysis. -/
def dedupeBySeat (students : List StudentRecord) : List StudentRecord :=
  dedupeGo [] students

/-! ## Helper lemmas -/

theorem takeWhile_all_append {p : Char → Bool} {a : List Char} {x : Char}
    {b : List Char} (ha : ∀ c ∈ a, p c = true) (hx : p x = false) :
    (a ++ x :: b).takeWhile p = a := by
  induction a with
  | nil => simp [List.takeWhile_cons, hx]
  | cons c t ih =>
      have hc : p c = true := ha c (by simp)
      simp only [List.cons_append, List.takeWhile_cons, hc, if_true]
      rw [ih (fun d hd => ha d (by simp [hd]))]

theorem dropWhile_all_append {p : Char → Bool} {a : List Char} {x : Char}
    {b : List Char} (ha : ∀ c ∈ a, p c = true) (hx : p x = false) :
    (a ++ x :: b).dropWhile p = x :: b := by
  induction a with
  | nil => simp [List.dropWhile_cons, hx]
  | cons c t ih =>
      have hc : p c = true := ha c (by simp)
      simp only [List.cons_append, List.dropWhile_cons, hc, if_true]
      exact ih (fun d hd => ha d (by simp [hd]))

theorem takeWhile_all {p : Char → Bool} {a : List Char}
    (ha : ∀ c ∈ a, p c = true) : a.takeWhile p = a := by
  induction a with
  | nil => simp
  | cons c t ih =>
      have hc : p c = true := ha c (by simp)
      simp [List.takeWhile_cons, hc, ih (fun d hd => ha d (by simp [hd]))]

theorem dropWhile_all {p : Char → Bool} {a : List Char}
    (ha : ∀ c ∈ a, p c = true) : a.dropWhile p = [] := by
  induction a with
  | nil => simp
  | cons c t ih =>
      have hc : p c = true := ha c (by simp)
      simp [List.dropWhile_cons, hc, ih (fun d hd => ha d (by simp [hd]))]

theorem digit_not_ws {c : Char} (h : isDigitC c = true) : isWsC c = false := by
  simp only [isDigitC, Bool.and_eq_true, decide_eq_true_eq] at h
  simp only [isWsC, Bool.or_eq_false_iff, decide_eq_false_iff_not]
  refine ⟨⟨⟨?_, ?_⟩, ?_⟩, ?_⟩ <;> rintro rfl <;> revert h <;> decide

theorem digit_ne_at {c : Char} (h : isDigitC c = true) : c ≠ '@' := by
  rintro rfl; revert h; decide

theorem dropWhile_eq_self {p : Char → Bool} {l : List Char}
    (h : ∀ c ∈ l, p c = false) : l.dropWhile p = l := by
  cases l with
  | nil => simp
  | cons c t => simp [List.dropWhile_cons, h c (by simp)]

theorem jsTrim_no_ws {l : List Char} (h : ∀ c ∈ l, isWsC c = false) :
    jsTrim l = l := by
  unfold jsTrim
  rw [dropWhile_eq_self h, dropWhile_eq_self (fun c hc => h c (by simpa using hc)),
    List.reverse_reverse]

theorem collapseWsGo_no_ws {l : List Char} (h : ∀ c ∈ l, isWsC c = false)
    (b : Bool) : collapseWsGo b l = l := by
  induction l generalizing b with
  | nil => simp [collapseWsGo]
  | cons c t ih =>
      have hc := h c (by simp)
      simp [collapseWsGo, hc, ih (fun d hd => h d (by simp [hd]))]

theorem collapseWs_no_ws {l : List Char} (h : ∀ c ∈ l, isWsC c = false) :
    collapseWs l = l := collapseWsGo_no_ws h false

theorem splitOn_single {l : List Char} (h : ∀ c ∈ l, c ≠ ' ') :
    l.splitOn ' ' = [l] := by
  have e : l.splitOn ' ' = l.splitOnP (· == ' ') := rfl
  rw [e, List.splitOnP_eq_single]
  intro x hx
  simp [h x hx]

theorem findGrace_digits_append {a b : List Char}
    (ha : ∀ c ∈ a, isDigitC c = true) (hb : ∀ c ∈ b, isDigitC c = true)
    (hbne : b ≠ []) : findGrace (a ++ '@' :: b) = some (digitsToNat b) := by
  induction a with
  | nil =>
      simp only [List.nil_append, findGrace, if_true]
      rw [takeWhile_all hb]
      simp [hbne]
  | cons c t ih =>
      have hc := digit_ne_at (ha c (by simp))
      simp only [List.cons_append, findGrace, hc, if_false]
      exact ih (fun d hd => ha d (by simp [hd]))

theorem scanGo_nil {α : Type} (tryAt : List Char → Option (α × List Char))
    (n : Nat) : scanGo tryAt n [] = [] := by
  cases n <;> rfl

/-! ## Claim theorems -/

/-- C3 counterexample: a backlog subject of the theory-only course 10411
(Applied Mathematics-I) whose four components are all present and nonzero
is classified as the overall category; the classifier applies no
theory-only/lab-only lookup step (it does not even receive the subject
identity), contradicting the claimed lookup-table inference before the
overall default. -/
theorem C3_no_lookup_counterexample :
    (parseSubjectsFromRows
      ⟨some [5], some [5], some [5], some [5],
       [⟨some 20, 0, "F", some ⟨3, 1⟩, some ⟨0, 1⟩⟩]⟩).map
      (fun s => (s.code, s.ktType)) = [("10411", some KTType.overall)] := by
  decide

/-- C3 (amended): for a backlog subject (fail grade or nonpositive grade
point) the backlog type follows the exact priority order external,
internal, term work, oral on present-and-zero components, and otherwise is
the overall category directly (there is no theory/lab lookup step).  In
particular a subject with external and internal both zero classifies as
external. -/
theorem C3_backlog_priority (totData : TotKT) (c : Components)
    (hFail : totData.grade = "F" ∨ totData.gp ≤ 0) :
    (c.external = some 0 → detectSubjectKTType totData c = some KTType.external)
    ∧ (c.external ≠ some 0 → c.internal = some 0 →
        detectSubjectKTType totData c = some KTType.internal)
    ∧ (c.external ≠ some 0 → c.internal ≠ some 0 → c.termWork = some 0 →
        detectSubjectKTType totData c = some KTType.termWork)
    ∧ (c.external ≠ some 0 → c.internal ≠ some 0 → c.termWork ≠ some 0 →
        c.oral = some 0 → detectSubjectKTType totData c = some KTType.oral)
    ∧ (c.external ≠ some 0 → c.internal ≠ some 0 → c.termWork ≠ some 0 →
        c.oral ≠ some 0 → detectSubjectKTType totData c = some KTType.overall) := by
  have hguard : (totData.grade ≠ "F" && totData.gp > 0) = false := by
    rcases hFail with h | h
    · simp [h]
    · have : ¬ (totData.gp > 0) := by omega
      simp [this]
  refine ⟨?_, ?_, ?_, ?_, ?_⟩ <;>
    intros <;> simp_all [detectSubjectKTType]

/-- C3 witness: a backlog subject with external and internal both present
and zero classifies as external. -/
theorem C3_backlog_priority_witness :
    detectSubjectKTType ⟨"F", 0⟩ ⟨some 3, some 3, some 0, some 0⟩ =
      some KTType.external :=
  (C3_backlog_priority ⟨"F", 0⟩ ⟨some 3, some 3, some 0, some 0⟩
    (Or.inl rfl)).1 rfl

/-- C7: grace-mark arithmetic.  Every component-row token of the shape
digits, at-sign, digits parses to the sum of the raw score and the grace
points; and in the aggregate row a total token of the shape digits followed
by a plus marker and no grace annotation parses to the bare number (shown
for an arbitrary digit string heading a standard quintuple). -/
theorem C7_grace_arithmetic (a b ds : List Char)
    (hane : a ≠ []) (ha : ∀ c ∈ a, isDigitC c = true)
    (hbne : b ≠ []) (hb : ∀ c ∈ b, isDigitC c = true)
    (hdne : ds ≠ []) (hd : ∀ c ∈ ds, isDigitC c = true) :
    parseComponentRow (a ++ '@' :: b) = [digitsToNat a + digitsToNat b]
    ∧ parseTotRow (ds ++ "+ 7 B+ 3 21.0".data) =
        [⟨some ((digitsToNat ds : Nat) : Int), 7, "B+",
          some ⟨3, 1⟩, some ⟨210, 10⟩⟩] := by
  constructor
  · have hnw : ∀ c ∈ a ++ '@' :: b, isWsC c = false := by
      intro c hc
      rcases List.mem_append.mp hc with h | h
      · exact digit_not_ws (ha c h)
      · rcases List.mem_cons.mp h with rfl | h
        · decide
        · exact digit_not_ws (hb c h)
    have hns : ∀ c ∈ a ++ '@' :: b, c ≠ ' ' := by
      intro c hc heq
      have := hnw c hc
      rw [heq] at this
      revert this
      decide
    have hpv : partValue (a ++ '@' :: b) = some (digitsToNat a + digitsToNat b) := by
      unfold partValue
      rw [takeWhile_all_append ha (by decide),
        findGrace_digits_append ha hb hbne]
      simp [hane]
    unfold parseComponentRow
    rw [jsTrim_no_ws hnw, collapseWs_no_ws hnw, splitOn_single hns]
    simp [hpv]
  · have htw : (ds ++ "+ 7 B+ 3 21.0".data).takeWhile isDigitC = ds :=
      takeWhile_all_append hd (by decide)
    have hdw : (ds ++ "+ 7 B+ 3 21.0".data).dropWhile isDigitC =
        "+ 7 B+ 3 21.0".data := dropWhile_all_append hd (by decide)
    have htry : tryStrictAt (ds ++ "+ 7 B+ 3 21.0".data) =
        some (⟨some ((digitsToNat ds : Nat) : Int), 7, "B+",
          some ⟨3, 1⟩, some ⟨210, 10⟩⟩, []) := by
      unfold tryStrictAt
      rw [htw, hdw, if_neg hdne]
      rfl
    obtain ⟨d0, ds', rfl⟩ : ∃ d0 ds', ds = d0 :: ds' := by
      cases ds with
      | nil => exact absurd rfl hdne
      | cons d0 ds' => exact ⟨d0, ds', rfl⟩
    have hstrict : scanWith tryStrictAt ((d0 :: ds') ++ "+ 7 B+ 3 21.0".data) =
        [⟨some ((digitsToNat (d0 :: ds') : Nat) : Int), 7, "B+",
          some ⟨3, 1⟩, some ⟨210, 10⟩⟩] := by
      unfold scanWith
      rw [List.cons_append]
      rw [scanGo]
      rw [← List.cons_append, htry]
      simp [scanGo_nil]
    unfold parseTotRow
    rw [hstrict]
    simp

/-- C7 witness: the component token 38 at 5 parses to 43 and the aggregate
total token 77 plus parses to 77. -/
theorem C7_grace_arithmetic_witness :
    parseComponentRow "38@5".data = [43]
    ∧ parseTotRow "77+ 7 B+ 3 21.0".data =
        [⟨some 77, 7, "B+", some ⟨3, 1⟩, some ⟨210, 10⟩⟩] := by
  have h := C7_grace_arithmetic "38".data "5".data "77".data
    (by decide) (by decide) (by decide) (by decide) (by decide) (by decide)
  have e1 : "38".data ++ '@' :: "5".data = "38@5".data := by decide
  have e2 : "77".data ++ "+ 7 B+ 3 21.0".data = "77+ 7 B+ 3 21.0".data := by
    decide
  have e3 : digitsToNat "38".data + digitsToNat "5".data = 43 := by decide
  have e4 : digitsToNat "77".data = 77 := by decide
  obtain ⟨h1, h2⟩ := h
  rw [e1, e3] at h1
  rw [e2, e4] at h2
  exact ⟨h1, h2⟩

/-- C4 counterexample: a block whose first (and only) line yields a seat
number is nevertheless rejected, because parseStudentBlock also rejects
every block with fewer than three nonempty lines. -/
theorem C4_short_block_counterexample :
    (seatMatchOf "1402781 DISHA ATMARAM MASAYE Regular".data).isSome = true
    ∧ parseStudentBlock
        ⟨"1402781 DISHA ATMARAM MASAYE Regular", 1, 0, 0, none⟩ = none := by
  decide

/-- C4 (amended): parseStudentBlock rejects a block exactly when the block
has fewer than three nonempty lines or its first nonempty line yields no
seat number; every other block produces a record, the remaining header
fields degrading to empty or null. -/
theorem C4_rejection_characterization (block : RawStudentBlock) :
    parseStudentBlock block = none ↔
      ((procLines block.text).length < 3
        ∨ ((procLines block.text).head?.bind (fun l => seatMatchOf l.data))
            = none) := by
  unfold parseStudentBlock
  by_cases hlen : (procLines block.text).length < 3
  · simp [hlen]
  · simp only [hlen, if_false, false_or]
    cases h : procLines block.text with
    | nil => rw [h] at hlen; simp at hlen
    | cons l rest =>
        unfold parseHeaderLine
        cases hs : seatMatchOf l.data with
        | none => simp [hs]
        | some v => simp [hs]

/-- Membership form of the subjects produced by parseSubjectsFromRows:
length is capped by the curriculum subject count and the backlog flag is
exactly the fail-grade-or-zero-grade-point test. -/
theorem parseSubjects_invariants (mr : MarkRows) :
    (parseSubjectsFromRows mr).length ≤ NUM_SUBJECTS
    ∧ ∀ s ∈ parseSubjectsFromRows mr,
        (s.isKT = true ↔ (s.marks.grade = "F" ∨ s.marks.gradePoint = 0)) := by
  constructor
  · unfold parseSubjectsFromRows
    simp [List.enum_length]
  · intro s hs
    unfold parseSubjectsFromRows at hs
    obtain ⟨p, _, rfl⟩ := List.mem_map.mp hs
    simp only []
    constructor
    · intro hkt
      rcases Bool.or_eq_true_iff.mp hkt with h | h
      · exact Or.inl (by simpa using h)
      · exact Or.inr (by simpa using h)
    · intro hor
      rcases hor with h | h
      · simp [h]
      · simp [h]

/-- Extraction of the record fields from a successful parseStudentBlock. -/
theorem parseStudentBlock_subjects {block : RawStudentBlock}
    {r : StudentRecord} (h : parseStudentBlock block = some r) :
    r.subjects = parseSubjectsFromRows (extractMarkRows (procLines block.text)) := by
  unfold parseStudentBlock at h
  by_cases hlen : (procLines block.text).length < 3
  · simp [hlen] at h
  · simp only [hlen, if_false] at h
    cases hh : parseHeaderLine (procLines block.text) block.pendingErn with
    | none => rw [hh] at h; simp at h
    | some header =>
        rw [hh] at h
        simp only [Option.some_inj] at h
        rw [← h]

/-- C8: every emitted record has at most the fixed curriculum number of
subjects (fourteen), and each subject is flagged as a backlog exactly when
its grade is the fail symbol F or its grade point is zero. -/
theorem C8_subject_invariants (block : RawStudentBlock) (r : StudentRecord)
    (h : parseStudentBlock block = some r) :
    r.subjects.length ≤ NUM_SUBJECTS
    ∧ ∀ s ∈ r.subjects,
        (s.isKT = true ↔ (s.marks.grade = "F" ∨ s.marks.gradePoint = 0)) := by
  rw [parseStudentBlock_subjects h]
  exact parseSubjects_invariants _

/-- Concrete block used by the C8 witness. -/
def blkC8 : RawStudentBlock :=
  ⟨"1402781 DISHA MASAYE Regular (MU0341120250220778)\nT1 10 20\nTOT 77+ 7 B+ 3 21.0 38 0 F 3 0.0",
   1, 0, 2, none⟩

/-- C8 witness: a concrete parsed record satisfying the invariants. -/
theorem C8_subject_invariants_witness :
    ∃ r, parseStudentBlock blkC8 = some r ∧
      (r.subjects.length ≤ NUM_SUBJECTS
        ∧ ∀ s ∈ r.subjects,
            (s.isKT = true ↔ (s.marks.grade = "F" ∨ s.marks.gradePoint = 0))) := by
  have hs : (parseStudentBlock blkC8).isSome = true := by decide
  exact ⟨(parseStudentBlock blkC8).get hs, (Option.some_get hs).symm,
    C8_subject_invariants blkC8 _ (Option.some_get hs).symm⟩

/-- Soundness of ERN pattern one: only validated values are returned. -/
theorem ernP1_sound {l : List Char} {e : String} (h : ernP1 l = some e) :
    isValidErn e = true := by
  unfold ernP1 at h
  split at h
  · split at h <;> simp_all
  · simp_all

/-- Soundness of ERN pattern two. -/
theorem ernP2_sound {l : List Char} {e : String} (h : ernP2 l = some e) :
    isValidErn e = true := by
  unfold ernP2 at h
  split at h
  · split at h <;> simp_all
  · simp_all

/-- Soundness of the split-ERN assembly. -/
theorem ernP3_sound {l : List Char} {next : Option (List Char)} {e : String}
    (h : ernP3 l next = some e) : isValidErn e = true := by
  unfold ernP3 at h
  split at h
  · split at h
    · split at h
      · split at h <;> simp_all
      · simp_all
    · simp_all
  · simp_all

/-- Soundness of the five-line ERN window search. -/
theorem searchErnWindow_sound :
    ∀ (k : Nat) (lines : List String) (e : String),
      searchErnWindow k lines = some e → isValidErn e = true := by
  intro k
  induction k with
  | zero => intro lines e h; exact absurd h (by simp [searchErnWindow])
  | succ k ih =>
      intro lines e h
      cases lines with
      | nil => exact absurd h (by simp [searchErnWindow])
      | cons l rest =>
          unfold searchErnWindow at h
          split at h
          next x hx => cases h; exact ernP1_sound hx
          next =>
            split at h
            next x hx => cases h; exact ernP2_sound hx
            next =>
              split at h
              next x hx => cases h; exact ernP3_sound hx
              next => exact ih rest e h

/-- Soundness of the broad ERN search. -/
theorem searchErnBroad_sound :
    ∀ (lines : List String) (e : String),
      searchErnBroad lines = some e → isValidErn e = true := by
  intro lines
  induction lines with
  | nil => intro e h; exact absurd h (by simp [searchErnBroad])
  | cons l rest ih =>
      intro e h
      unfold searchErnBroad at h
      split at h
      next x hx => cases h; exact ernP1_sound hx
      next => exact ih e h

/-- Soundness of the whole in-block ERN search. -/
theorem findErnInLines_sound {lines : List String} {e : String}
    (h : findErnInLines lines = some e) : isValidErn e = true := by
  unfold findErnInLines at h
  split at h
  next x hx => cases h; exact searchErnWindow_sound 5 lines e hx
  next => exact searchErnBroad_sound _ e h

/-- Soundness of the pending-ERN combination. -/
theorem combineErn_sound {found pe : Option String} {e : String}
    (h : combineErn found pe = some e) : isValidErn e = true ∨ found = some e := by
  unfold combineErn at h
  split at h
  · cases h; exact Or.inr rfl
  · split at h
    · split at h
      · cases h
        exact Or.inl (by assumption)
      · simp_all
    · simp_all

/-- The ERN of a parsed header is exactly the combination of the in-block
search with the pending fallback. -/
theorem parseHeaderLine_ern {lines : List String} {pe : Option String}
    {hd : Header} (h : parseHeaderLine lines pe = some hd) :
    hd.ern = combineErn (findErnInLines lines) pe := by
  unfold parseHeaderLine at h
  split at h
  · exact absurd h (by simp)
  · split at h
    · exact absurd h (by simp)
    · cases h
      rfl

/-- The ERN of a parsed record is the header ERN. -/
theorem parseStudentBlock_ern {block : RawStudentBlock} {r : StudentRecord}
    (h : parseStudentBlock block = some r) :
    ∃ hd, parseHeaderLine (procLines block.text) block.pendingErn = some hd
      ∧ r.ern = hd.ern := by
  unfold parseStudentBlock at h
  by_cases hlen : (procLines block.text).length < 3
  · simp [hlen] at h
  · simp only [hlen, if_false] at h
    cases hh : parseHeaderLine (procLines block.text) block.pendingErn with
    | none => rw [hh] at h; simp at h
    | some header =>
        rw [hh] at h
        simp only [Option.some_inj] at h
        exact ⟨header, rfl, by rw [← h]⟩

/-- C10: every record emitted by parseStudentBlock carries either no ERN or
a string of the exact shape MU followed by sixteen digits; all assignment
paths validate with isValidErn. -/
theorem C10_ern_validity (block : RawStudentBlock) (r : StudentRecord)
    (e : String) (h : parseStudentBlock block = some r) (he : r.ern = some e) :
    isValidErn e = true := by
  obtain ⟨hd, hhd, hern⟩ := parseStudentBlock_ern h
  rw [hern] at he
  rw [parseHeaderLine_ern hhd] at he
  rcases combineErn_sound he with hv | hfound
  · exact hv
  · exact findErnInLines_sound hfound

/-- Concrete block used by the C10 witness. -/
def blkC10 : RawStudentBlock :=
  ⟨"1402781 DISHA MASAYE Regular (MU0341120250220778)\nT1 10 20\nTOT 77+ 7 B+ 3 21.0",
   1, 0, 2, none⟩

/-- Fallback record used only to project concrete parse results in
witnesses. -/
def emptyRecord : StudentRecord :=
  ⟨"", "", "", none, "", "", [], none, ⟨0, 1⟩, "", ⟨0, 1⟩, none, none, none,
   ⟨0, 0, 0, 0, 0, [], false⟩⟩

/-- C10 witness: a concrete record with a present, valid ERN. -/
theorem C10_ern_validity_witness :
    ∃ r e, parseStudentBlock blkC10 = some r ∧ r.ern = some e
      ∧ isValidErn e = true := by
  have hr : parseStudentBlock blkC10 =
      some ((parseStudentBlock blkC10).getD emptyRecord) := by decide
  have he : ((parseStudentBlock blkC10).getD emptyRecord).ern =
      some ((((parseStudentBlock blkC10).getD emptyRecord).ern).getD "") := by
    decide
  exact ⟨_, _, hr, he, C10_ern_validity blkC10 _ _ hr he⟩

/-- Record with an empty name used by the C6 counterexample. -/
def sC6 : StudentRecord :=
  ⟨"1402781", "", "", none, "", "Regular", [], some ⟨0, 1⟩, ⟨800, 1⟩,
   "FAILED", ⟨0, 1⟩, none, some ⟨0, 1⟩, some ⟨0, 1⟩,
   ⟨0, 0, 0, 0, 0, [], false⟩⟩

/-- C6 counterexample: a record with an empty name produces a validator
ERROR (field name), not a warning, so duplicate seat numbers are not the
only error condition. -/
theorem C6_name_error_counterexample :
    (validateStudent sC6).errors =
      [⟨"name", "Student name is required", some "1402781"⟩]
    ∧ (validateStudent sC6).warnings = [] := by decide

/-- C6 (amended): the batch validator reports the duplicate-seat errors
followed by the per-student errors; per-student errors arise only from the
seat-number format and the name checks; the total-marks range, SGPA range,
grade/grade-point mismatch and credit-point mismatch findings are all
reported as warnings that do not remove the record. -/
theorem C6_error_warning_split (students : List StudentRecord)
    (s : StudentRecord) :
    (validateParsedResult students).errors =
      (findDuplicates students).map dupError ++
        (students.map validateStudent).flatMap (fun r => r.errors)
    ∧ (∀ e ∈ (validateStudent s).errors,
        e.field = "seatNumber" ∨ e.field = "name")
    ∧ ((validateStudent s).errors = [] ↔
        ((s.seatNumber ≠ "" ∧ seat7 s.seatNumber = true)
          ∧ (s.name ≠ "" ∧ 2 ≤ (jsTrim s.name.data).length)))
    ∧ ((jltB s.totalMarks (some ⟨0, 1⟩) ||
          jgtB s.totalMarks (some s.maxMarks)) = true →
        ∃ w ∈ (validateStudent s).warnings, w.field = "totalMarks")
    ∧ ((qLtB s.sgpa ⟨0, 1⟩ || qLtB ⟨10, 1⟩ s.sgpa) = true →
        ∃ w ∈ (validateStudent s).warnings, w.field = "sgpa")
    ∧ (∀ sub ∈ s.subjects, ∀ egp, gradeToGP sub.marks.grade = some egp →
        sub.marks.gradePoint ≠ egp →
        ∃ w ∈ (validateStudent s).warnings,
          w.field = "subject." ++ sub.code ++ ".gradePoint")
    ∧ (∀ sub ∈ s.subjects,
        cpMismatch sub.marks.credits sub.marks.creditPoints
          sub.marks.gradePoint = true →
        ∃ w ∈ (validateStudent s).warnings,
          w.field = "subject." ++ sub.code ++ ".creditPoints") := by
  have hsub : ∀ sub seat, (validateSubject sub seat).errors = [] := by
    intro sub seat
    rfl
  have subjErrorsNil : ∀ (subs : List Subject) (seat : String),
      (subs.map (fun sub => validateSubject sub seat)).flatMap
        (fun r => r.errors) = [] := by
    intro subs seat
    induction subs with
    | nil => rfl
    | cons a t ih => simp [hsub, ih]
  refine ⟨rfl, ?_, ?_, ?_, ?_, ?_, ?_⟩
  · intro e he
    unfold validateStudent at he
    simp only [] at he
    rw [subjErrorsNil] at he
    simp only [List.append_nil, List.mem_append] at he
    rcases he with he | he
    · left
      split at he <;> simp_all
    · right
      split at he <;> simp_all
  · unfold validateStudent
    constructor
    · intro h
      by_cases h1 : s.seatNumber = "" || !seat7 s.seatNumber
      · simp [h1] at h
      · by_cases h2 : s.name = "" || decide ((jsTrim s.name.data).length < 2)
        · simp [h2] at h
        · simp only [Bool.or_eq_true, Bool.not_eq_true', decide_eq_true_eq,
            not_or, Bool.not_eq_false] at h1 h2
          push_neg at h1 h2
          exact ⟨⟨by simpa using h1.1, h1.2⟩, ⟨by simpa using h2.1, by omega⟩⟩
    · rintro ⟨⟨hs1, hs2⟩, hn1, hn2⟩
      have e1 : (s.seatNumber = "" || !seat7 s.seatNumber) = false := by
        simp [hs1, hs2]
      have e2 : (s.name = "" || decide ((jsTrim s.name.data).length < 2)) = false := by
        simp [hn1]
        omega
      simp [e1, e2, hsub]
  · intro h
    unfold validateStudent
    refine ⟨⟨"totalMarks", "Total marks " ++ jsNumStr s.totalMarks ++
      " may be invalid (max: " ++ qStr s.maxMarks ++ ")", some s.seatNumber⟩,
      ?_, rfl⟩
    simp [h]
  · intro h
    unfold validateStudent
    refine ⟨⟨"sgpa", "SGPA " ++ qStr s.sgpa ++ " is out of valid range (0-10)",
      some s.seatNumber⟩, ?_, rfl⟩
    simp [h]
  · intro sub hmem egp hegp hne
    unfold validateStudent
    refine ⟨⟨"subject." ++ sub.code ++ ".gradePoint",
      "Grade " ++ sub.marks.grade ++ " does not match GP " ++
        toString sub.marks.gradePoint, some s.seatNumber⟩, ?_, rfl⟩
    simp only [List.mem_append]
    right
    simp only [List.mem_flatMap]
    refine ⟨validateSubject sub s.seatNumber, List.mem_map_of_mem _ hmem, ?_⟩
    unfold validateSubject
    simp [hegp, hne]
  · intro sub hmem hcp
    unfold validateStudent
    refine ⟨⟨"subject." ++ sub.code ++ ".creditPoints",
      "Credit points " ++ jsNumStr sub.marks.creditPoints ++
        " does not match expected", some s.seatNumber⟩, ?_, rfl⟩
    simp only [List.mem_append]
    right
    simp only [List.mem_flatMap]
    refine ⟨validateSubject sub s.seatNumber, List.mem_map_of_mem _ hmem, ?_⟩
    unfold validateSubject
    simp [hcp]

/-- Record with out-of-range total marks used by the C6 witness. -/
def sC6b : StudentRecord :=
  ⟨"1402781", "Disha Masaye", "", none, "", "Regular", [], some ⟨900, 1⟩,
   ⟨800, 1⟩, "FAILED", ⟨0, 1⟩, none, some ⟨0, 1⟩, some ⟨0, 1⟩,
   ⟨0, 0, 0, 0, 0, [], false⟩⟩

/-- C6 witness: an out-of-range total produces a totalMarks warning. -/
theorem C6_error_warning_split_witness :
    ∃ w ∈ (validateStudent sC6b).warnings, w.field = "totalMarks" :=
  (C6_error_warning_split [] sC6b).2.2.2.1 (by decide)

/-- C5: when two parsed records carry the same seat number, the
de-duplicated output keeps exactly the first record, findDuplicates lists
the seat number exactly once, and (for records that are otherwise clean)
the batch validator reports exactly one error, the duplicate error naming
that seat number. -/
theorem C5_duplicate_seat (r1 r2 : StudentRecord)
    (hseat : r1.seatNumber = r2.seatNumber)
    (h1 : (validateStudent r1).errors = [])
    (h2 : (validateStudent r2).errors = []) :
    dedupeBySeat [r1, r2] = [r1]
    ∧ findDuplicates [r1, r2] = [r2.seatNumber]
    ∧ (validateParsedResult [r1, r2]).errors = [dupError r2.seatNumber] := by
  refine ⟨?_, ?_, ?_⟩
  · unfold dedupeBySeat
    simp [dedupeGo, hseat]
  · unfold findDuplicates
    simp [findDupGo, hseat]
  · unfold validateParsedResult findDuplicates
    simp [findDupGo, hseat, h1, h2]

/-- Records used by the C5 witness. -/
def rC5a : StudentRecord :=
  ⟨"1402781", "Disha Masaye", "", none, "", "Regular", [], some ⟨0, 1⟩,
   ⟨800, 1⟩, "FAILED", ⟨0, 1⟩, none, some ⟨0, 1⟩, some ⟨0, 1⟩,
   ⟨0, 0, 0, 0, 0, [], false⟩⟩

def rC5b : StudentRecord :=
  ⟨"1402781", "Rahul Sharma", "", none, "", "Regular", [], some ⟨0, 1⟩,
   ⟨800, 1⟩, "FAILED", ⟨0, 1⟩, none, some ⟨0, 1⟩, some ⟨0, 1⟩,
   ⟨0, 0, 0, 0, 0, [], false⟩⟩

/-- C5 witness: two records with seat number 1402781 yield one output
record and one duplicate error naming the seat. -/
theorem C5_duplicate_seat_witness :
    dedupeBySeat [rC5a, rC5b] = [rC5a]
    ∧ findDuplicates [rC5a, rC5b] = ["1402781"]
    ∧ (validateParsedResult [rC5a, rC5b]).errors = [dupError "1402781"] :=
  C5_duplicate_seat rC5a rC5b (by decide) (by decide) (by decide)

/-- The post-processing pass preserves the number of blocks. -/
theorem attachPendingErns_length (bs : List RawStudentBlock) :
    (attachPendingErns bs).length = bs.length := by
  cases bs with
  | nil => rfl
  | cons b rest => simp [attachPendingErns]

/-- The post-processing pass preserves every block text. -/
theorem attachPendingErns_text (bs : List RawStudentBlock) (j : Nat)
    (h : j < (attachPendingErns bs).length) (hj : j < bs.length) :
    ((attachPendingErns bs).get ⟨j, h⟩).text = (bs.get ⟨j, hj⟩).text := by
  cases bs with
  | nil => simp at hj
  | cons b rest =>
      cases j with
      | zero => rfl
      | succ j =>
          have hj2 : j < ((b :: rest).zip rest).length := by
            simpa [attachPendingErns] using h
          have hj3 : j < rest.length := by
            simpa using hj
          simp only [attachPendingErns, List.get_eq_getElem,
            List.getElem_cons_succ, List.getElem_map, List.getElem_zip]
          split <;> rfl

/-- The head block never receives a pending ERN from the post-processing
pass. -/
theorem attachPendingErns_head (bs : List RawStudentBlock)
    (h : 0 < (attachPendingErns bs).length) (hb : 0 < bs.length) :
    ((attachPendingErns bs).get ⟨0, h⟩).pendingErn =
      (bs.get ⟨0, hb⟩).pendingErn := by
  cases bs with
  | nil => simp at hb
  | cons b rest => rfl

/-- A trailing ERN found in block i is attached as the pending ERN of
block i plus one. -/
theorem attachPendingErns_succ (bs : List RawStudentBlock) (i : Nat)
    (h : i + 1 < (attachPendingErns bs).length) (hi : i < bs.length)
    (t : String) (ht : trailingErn ((bs.get ⟨i, hi⟩).text) = some t) :
    ((attachPendingErns bs).get ⟨i + 1, h⟩).pendingErn = some t := by
  cases bs with
  | nil => simp at hi
  | cons b rest =>
      have hi2 : i < ((b :: rest).zip rest).length := by
        simpa [attachPendingErns] using h
      simp only [attachPendingErns, List.get_eq_getElem,
        List.getElem_cons_succ, List.getElem_map, List.getElem_zip]
      have ht2 : trailingErn (((b :: rest).get ⟨i, by simpa using hi⟩).text)
          = some t := ht
      rw [List.get_eq_getElem] at ht2
      split
      next e heq =>
        rw [ht2] at heq
        cases heq
        rfl
      next heq => rw [ht2] at heq; cases heq

/-- Every block produced by the segmentation loop has no pending ERN yet. -/
theorem findBlocksGo_pending (page tot : Nat) :
    ∀ (ls : List String) (i : Nat) (cur : List String) (bstart : Int),
      ∀ b ∈ findBlocksGo page tot ls i cur bstart, b.pendingErn = none := by
  intro ls
  induction ls with
  | nil =>
      intro i cur bstart b hb
      unfold findBlocksGo at hb
      split at hb
      · rcases List.mem_singleton.mp hb with rfl
        rfl
      · simp at hb
  | cons l rest ih =>
      intro i cur bstart b hb
      unfold findBlocksGo at hb
      split at hb
      · split at hb
        · rcases List.mem_cons.mp hb with rfl | hb
          · rfl
          · exact ih _ _ _ b hb
        · exact ih _ _ _ b hb
      · split at hb
        · exact ih _ _ _ b hb
        · exact ih _ _ _ b hb

/-- C1: in findStudentBlocks, a registration-number-shaped token found in
the trailing window of block i is attached as the pendingErn of block
i plus one, while the first block never carries one; and parseHeaderLine
uses the pending value as the returned ERN exactly when the in-block
search finds nothing, validating it first. -/
theorem C1_pending_ern_handoff
    (lines : List String) (page : Nat) (i : Nat) (t : String)
    (h1 : i + 1 < (findStudentBlocks lines page).length)
    (h2 : trailingErn (((findStudentBlocks lines page).get
        ⟨i, Nat.lt_of_succ_lt h1⟩).text) = some t)
    (ls : List String) (pe : String) (hd : Header)
    (h3 : parseHeaderLine ls (some pe) = some hd) :
    ((findStudentBlocks lines page).get ⟨i + 1, h1⟩).pendingErn = some t
    ∧ ((findStudentBlocks lines page).get
        ⟨0, Nat.lt_of_le_of_lt (Nat.zero_le i) (Nat.lt_of_succ_lt h1)⟩).pendingErn
        = none
    ∧ (∀ e, findErnInLines ls = some e → hd.ern = some e)
    ∧ (findErnInLines ls = none →
        hd.ern = if isValidErn pe then some pe else none) := by
  have hfs : findStudentBlocks lines page =
      attachPendingErns (findBlocksMain lines page) := rfl
  have hlen : (findStudentBlocks lines page).length =
      (findBlocksMain lines page).length := by
    rw [hfs]; exact attachPendingErns_length _
  have hi : i < (findBlocksMain lines page).length := by
    omega
  have hern := parseHeaderLine_ern h3
  refine ⟨?_, ?_, ?_, ?_⟩
  · have htext := attachPendingErns_text (findBlocksMain lines page) i
      (by rw [← hfs]; exact Nat.lt_of_succ_lt h1) hi
    have h2b : trailingErn (((findBlocksMain lines page).get ⟨i, hi⟩).text)
        = some t := by
      rw [← htext]
      exact h2
    exact attachPendingErns_succ (findBlocksMain lines page) i
      (by rw [← hfs]; exact h1) hi t h2b
  · have hb : 0 < (findBlocksMain lines page).length := by omega
    have hh := attachPendingErns_head (findBlocksMain lines page)
      (by rw [← hfs]; omega) hb
    exact hh.trans (findBlocksGo_pending page lines.length lines 0 [] (-1)
      ((findBlocksMain lines page).get ⟨0, hb⟩) (List.get_mem _ _ hb))
  · intro e hfe
    rw [hern, hfe]
    rfl
  · intro hfe
    rw [hern, hfe]
    rfl

/-- Lines used by the C1 witness: the first block spans twelve lines so
that its trailing window contains the split registration token, and the
following block starts right after. -/
def c1Lines : List String :=
  ["1402781 DISHA ATMARAM MASAYE Regular", "x1", "x2", "x3", "x4", "x5",
   "x6", "x7", "x8", "x9", "x10", "(MU0341120250220778",
   "1402782 RAHUL KUMAR SHARMA Regular"]

/-- Header lines without any in-block ERN, used by the C1 witness. -/
def c1HeaderLines : List String :=
  ["1402782 RAHUL KUMAR SHARMA Regular", "T1 10", "TOT 77+ 7 B+ 3 21.0"]

/-- Fallback header used only to project concrete results in witnesses. -/
def emptyHeader : Header := ⟨"", "", "", none, "", ""⟩

/-- C1 witness: the trailing token MU0341120250220778 of block zero becomes
the pendingErn of block one, block zero has none, and a header block with
no in-block ERN adopts the pending value. -/
theorem C1_pending_ern_handoff_witness :
    ((findStudentBlocks c1Lines 1).get ⟨1, by decide⟩).pendingErn =
      some "MU0341120250220778"
    ∧ ((parseHeaderLine c1HeaderLines (some "MU0341120250220778")).getD
        emptyHeader).ern = some "MU0341120250220778" := by
  have h3 : parseHeaderLine c1HeaderLines (some "MU0341120250220778") =
      some ((parseHeaderLine c1HeaderLines (some "MU0341120250220778")).getD
        emptyHeader) := by decide
  have h := C1_pending_ern_handoff c1Lines 1 0 "MU0341120250220778"
    (by decide) (by decide) c1HeaderLines "MU0341120250220778" _ h3
  refine ⟨h.1, ?_⟩
  have h4 := h.2.2.2 (by decide)
  rw [h4]
  decide

/-- The TOT update of one extractMarkRows step: keep the better
candidate. -/
def updTot (cand cur : List TotEntry) : List TotEntry :=
  if betterTot cand cur then cand else cur

/-- A line whose normalised form starts with the TOT label updates exactly
the TOT field, keeping the better candidate. -/
theorem stepMarkRows_totLine (rows : MarkRows) (l : String)
    (h : (collapseWs (jsTrim l.data)).take 3 = ['T', 'O', 'T']) :
    stepMarkRows rows l =
      { rows with TOT := (updTot
          (parseTotRow (((collapseWs (jsTrim l.data)).drop 3).dropWhile isWsC))
          rows.TOT) } := by
  have h2 : (collapseWs (jsTrim l.data)).take 2 = ['T', 'O'] := by
    have e : (collapseWs (jsTrim l.data)).take 2 =
        ((collapseWs (jsTrim l.data)).take 3).take 2 := by
      rw [List.take_take]
      norm_num
    rw [e, h]
    rfl
  unfold stepMarkRows updTot
  simp only [h2, h]
  rw [if_neg (by decide : ¬ (['T', 'O'] = ['T', '1'])),
    if_neg (by decide : ¬ (['T', 'O'] = ['O', '1'])),
    if_neg (by decide : ¬ (['T', 'O'] = ['E', '1'])),
    if_neg (by decide : ¬ (['T', 'O'] = ['I', '1']))]
  rw [if_pos trivial]
  by_cases hb : betterTot
      (parseTotRow (((collapseWs (jsTrim l.data)).drop 3).dropWhile isWsC))
      rows.TOT = true
  · rw [if_pos hb, if_pos hb]
  · rw [if_neg hb, if_neg hb]

/-- C2: among two TOT-candidate rows the parser keeps the one with more
parsed subjects, tie-broken by the greater total-marks sum, independently
of the order in which the two lines appear. -/
theorem C2_tot_candidate_selection (l1 l2 : String) (c1 c2 : List TotEntry)
    (h1 : (collapseWs (jsTrim l1.data)).take 3 = ['T', 'O', 'T'])
    (h2 : (collapseWs (jsTrim l2.data)).take 3 = ['T', 'O', 'T'])
    (hp1 : parseTotRow (((collapseWs (jsTrim l1.data)).drop 3).dropWhile isWsC) = c1)
    (hp2 : parseTotRow (((collapseWs (jsTrim l2.data)).drop 3).dropWhile isWsC) = c2)
    (hbetter : c2.length < c1.length
      ∨ (c1.length = c2.length ∧ ∃ a b : Int,
          sumTotals c1 = some a ∧ sumTotals c2 = some b ∧ b < a)) :
    (extractMarkRows [l1, l2]).TOT = c1
    ∧ (extractMarkRows [l2, l1]).TOT = c1 := by
  have hc1ne : c1 ≠ [] := by
    rcases hbetter with hlt | ⟨hlen, a, b, ha, hb, hab⟩
    · intro hc
      rw [hc] at hlt
      simp at hlt
    · intro hc
      rw [hc] at hlen ha
      have : c2 = [] := by
        cases c2 with
        | nil => rfl
        | cons x t => simp at hlen
      rw [this] at hb
      simp [sumTotals] at ha hb
      omega
  have hb1 : betterTot c1 [] = true := by
    unfold betterTot
    have : 0 < c1.length := List.length_pos.mpr hc1ne
    simp [this]
  have hb21 : betterTot c2 c1 = false := by
    unfold betterTot
    rcases hbetter with hlt | ⟨hlen, a, b, ha, hb, hab⟩
    · have e1 : decide (c2.length > c1.length) = false := by
        simp
        omega
      have e2 : (c2.length == c1.length) = false := by
        simp [Nat.beq_eq_true_eq]
        omega
      simp [e1, e2]
    · have e1 : decide (c2.length > c1.length) = false := by
        simp
        omega
      have e3 : jgtI (sumTotals c2) (sumTotals c1) = false := by
        rw [ha, hb]
        simp [jgtI]
        omega
      simp [e1, e3]
  have hb12 : c2 ≠ [] → betterTot c1 c2 = true := by
    intro hc2ne
    unfold betterTot
    rcases hbetter with hlt | ⟨hlen, a, b, ha, hb, hab⟩
    · simp
      omega
    · have e2 : (c1.length == c2.length) = true := by
        simp [hlen]
      have e3 : jgtI (sumTotals c1) (sumTotals c2) = true := by
        rw [ha, hb]
        simp [jgtI]
        omega
      simp [e2, e3]
  constructor
  · have e : extractMarkRows [l1, l2] =
        stepMarkRows (stepMarkRows ⟨none, none, none, none, []⟩ l1) l2 := rfl
    rw [e, stepMarkRows_totLine _ _ h1, stepMarkRows_totLine _ _ h2]
    simp only [hp1, hp2]
    simp [updTot, hb1, hb21]
  · have e : extractMarkRows [l2, l1] =
        stepMarkRows (stepMarkRows ⟨none, none, none, none, []⟩ l2) l1 := rfl
    rw [e, stepMarkRows_totLine _ _ h2, stepMarkRows_totLine _ _ h1]
    simp only [hp1, hp2]
    by_cases hc2 : c2 = []
    · subst hc2
      have hb2e : betterTot [] [] = false := by decide
      simp [updTot, hb2e, hb1]
    · have hb2 : betterTot c2 [] = true := by
        unfold betterTot
        have : 0 < c2.length := List.length_pos.mpr hc2
        simp [this]
      simp [updTot, hb2, hb12 hc2]

/-- Seven-subject TOT line used by the C2 witness. -/
def l7C2 : String :=
  "TOT 10 1 A 1 1.0 10 1 A 1 1.0 10 1 A 1 1.0 10 1 A 1 1.0 10 1 A 1 1.0 10 1 A 1 1.0 10 1 A 1 1.0"

/-- Five-subject TOT line used by the C2 witness. -/
def l5C2 : String :=
  "TOT 10 1 A 1 1.0 10 1 A 1 1.0 10 1 A 1 1.0 10 1 A 1 1.0 10 1 A 1 1.0"

/-- Same-length TOT line with total sum 100, used by the C2 witness. -/
def lSum100C2 : String := "TOT 50 1 A 1 1.0 50 1 A 1 1.0"

/-- Same-length TOT line with total sum 150, used by the C2 witness. -/
def lSum150C2 : String := "TOT 75 1 A 1 1.0 75 1 A 1 1.0"

/-- C2 witness: between candidates of lengths five and seven the
seven-subject row wins in either order, and between same-length candidates
of sums 100 and 150 the sum-150 row wins in either order. -/
theorem C2_tot_candidate_selection_witness :
    ((extractMarkRows [l7C2, l5C2]).TOT.length = 7
      ∧ (extractMarkRows [l5C2, l7C2]).TOT.length = 7)
    ∧ (sumTotals (extractMarkRows [lSum150C2, lSum100C2]).TOT = some 150
      ∧ sumTotals (extractMarkRows [lSum100C2, lSum150C2]).TOT = some 150) := by
  have h75 := C2_tot_candidate_selection l7C2 l5C2
    (parseTotRow (((collapseWs (jsTrim l7C2.data)).drop 3).dropWhile isWsC))
    (parseTotRow (((collapseWs (jsTrim l5C2.data)).drop 3).dropWhile isWsC))
    (by decide) (by decide) rfl rfl (Or.inl (by decide))
  have hsum := C2_tot_candidate_selection lSum150C2 lSum100C2
    (parseTotRow (((collapseWs (jsTrim lSum150C2.data)).drop 3).dropWhile isWsC))
    (parseTotRow (((collapseWs (jsTrim lSum100C2.data)).drop 3).dropWhile isWsC))
    (by decide) (by decide) rfl rfl
    (Or.inr ⟨by decide, 150, 100, by decide, by decide, by decide⟩)
  refine ⟨⟨?_, ?_⟩, ?_, ?_⟩
  · rw [h75.1]
    decide
  · rw [h75.2]
    decide
  · rw [hsum.1]
    decide
  · rw [hsum.2]
    decide

/-- Stable insertion produces a permutation of the cons. -/
theorem insertOrd_perm {α : Type} (lt : α → α → Bool) (x : α) :
    ∀ l : List α, (insertOrd lt x l).Perm (x :: l) := by
  intro l
  induction l with
  | nil => exact List.Perm.refl _
  | cons y ys ih =>
      unfold insertOrd
      by_cases h : lt y x = true
      · rw [if_pos h]
        exact (ih.cons y).trans (List.Perm.swap x y ys)
      · rw [if_neg h]

/-- The insertion sort produces a permutation of the input. -/
theorem sortByLt_perm {α : Type} (lt : α → α → Bool) :
    ∀ l : List α, (sortByLt lt l).Perm l := by
  intro l
  induction l with
  | nil => exact List.Perm.refl _
  | cons x xs ih =>
      unfold sortByLt
      exact (insertOrd_perm lt x (sortByLt lt xs)).trans (ih.cons x)

/-- Membership in an insertion. -/
theorem mem_insertOrd {α : Type} (lt : α → α → Bool) (x z : α) :
    ∀ l : List α, z ∈ insertOrd lt x l ↔ z = x ∨ z ∈ l := by
  intro l
  induction l with
  | nil => simp [insertOrd]
  | cons y ys ih =>
      unfold insertOrd
      by_cases h : lt y x = true
      · rw [if_pos h]
        simp [ih]
        tauto
      · rw [if_neg h]
        simp

/-- Pairwise order of an insertion into a pairwise-ordered list, under
member-scoped asymmetry and transitivity of the comparator. -/
theorem insertOrd_pairwise {α : Type} (lt : α → α → Bool) (x : α) :
    ∀ l : List α,
      List.Pairwise (fun a b => lt b a = false) l →
      (∀ b ∈ l, lt b x = true → lt x b = false) →
      (∀ b ∈ l, ∀ c ∈ l, lt b x = false → lt c b = false → lt c x = false) →
      List.Pairwise (fun a b => lt b a = false) (insertOrd lt x l) := by
  intro l
  induction l with
  | nil =>
      intro _ _ _
      simp [insertOrd]
  | cons y ys ih =>
      intro hp hasym htr
      rcases List.pairwise_cons.mp hp with ⟨hy, hp2⟩
      unfold insertOrd
      by_cases h : lt y x = true
      · rw [if_pos h]
        refine List.pairwise_cons.mpr ⟨?_, ?_⟩
        · intro z hz
          rcases (mem_insertOrd lt x z ys).mp hz with rfl | hz2
          · exact hasym y (by simp) h
          · exact hy z hz2
        · exact ih hp2 (fun b hb hbx => hasym b (by simp [hb]) hbx)
            (fun b hb c hc h1 h2 =>
              htr b (by simp [hb]) c (by simp [hc]) h1 h2)
      · rw [if_neg h]
        have h0 : lt y x = false := by
          revert h
          cases lt y x <;> simp
        refine List.pairwise_cons.mpr ⟨?_, hp⟩
        intro z hz
        rcases List.mem_cons.mp hz with rfl | hz2
        · exact h0
        · exact htr y (by simp) z (by simp [hz2]) h0 (hy z hz2)

/-- The insertion sort is pairwise-ordered under member-scoped asymmetry
and transitivity of the comparator. -/
theorem sortByLt_pairwise {α : Type} (lt : α → α → Bool) :
    ∀ l : List α,
      (∀ a ∈ l, ∀ b ∈ l, lt a b = true → lt b a = false) →
      (∀ a ∈ l, ∀ b ∈ l, ∀ c ∈ l,
        lt b a = false → lt c b = false → lt c a = false) →
      List.Pairwise (fun a b => lt b a = false) (sortByLt lt l) := by
  intro l
  induction l with
  | nil =>
      intro _ _
      simp [sortByLt]
  | cons x xs ih =>
      intro hasym htr
      have hmem : ∀ z ∈ sortByLt lt xs, z ∈ xs :=
        fun z hz => ((sortByLt_perm lt xs).mem_iff).mp hz
      unfold sortByLt
      refine insertOrd_pairwise lt x (sortByLt lt xs) ?_ ?_ ?_
      · exact ih (fun a ha b hb hab => hasym a (by simp [ha]) b (by simp [hb]) hab)
          (fun a ha b hb c hc h1 h2 =>
            htr a (by simp [ha]) b (by simp [hb]) c (by simp [hc]) h1 h2)
      · intro b hb hbx
        exact hasym b (by simp [hmem b hb]) x (by simp) hbx
      · intro b hb c hc h1 h2
        exact htr x (by simp) b (by simp [hmem b hb]) c (by simp [hmem c hc]) h1 h2

/-- The first-occurrence key collection has no duplicates. -/
theorem groupKeys_nodup (items : List TextItem) : (groupKeys items).Nodup := by
  suffices h : ∀ (l : List TextItem) (acc : List Int), acc.Nodup →
      (List.foldl (fun ks it =>
        if quantY it ∈ ks then ks else ks ++ [quantY it]) acc l).Nodup by
    exact h items [] List.nodup_nil
  intro l
  induction l with
  | nil => intro acc h; exact h
  | cons it rest ih =>
      intro acc h
      simp only [List.foldl_cons]
      by_cases hm : quantY it ∈ acc
      · rw [if_pos hm]
        exact ih acc h
      · rw [if_neg hm]
        refine ih _ ((List.nodup_append).mpr ⟨h, List.nodup_singleton _, ?_⟩)
        intro a ha hb
        rw [List.mem_singleton.mp hb] at ha
        exact hm ha

/-- reconstructTableLines in filterMap form (the empty case included). -/
theorem reconstructTableLines_eq (items : List TextItem) :
    reconstructTableLines items =
      (lineYs items).filterMap (renderRow items (columnsOf items)) := by
  unfold reconstructTableLines
  split
  next heq => subst heq; rfl
  next => rfl

/-- C9: the line reconstructor never fails; an empty fragment list gives an
empty line list, any input renders as one line per y bucket in strictly
descending (top-to-bottom) quantised-y order, and each rendered row
concatenates its fragments in ascending x order (rowItems is, by
definition of renderRow, exactly the fragment sequence folded into the
column values).  The x ordering is stated for fragments with well-formed
(positive-denominator) coordinates, which all real page fragments have. -/
theorem C9_line_reconstruction (items : List TextItem)
    (hpos : ∀ it ∈ items, 0 < it.x.d) :
    reconstructTableLines [] = []
    ∧ reconstructTableLines items =
        (lineYs items).filterMap (renderRow items (columnsOf items))
    ∧ List.Pairwise (fun a b : Int => a > b) (lineYs items)
    ∧ ∀ k : Int, List.Pairwise (fun a b : TextItem => qLtB b.x a.x = false)
        (rowItems items k) := by
  refine ⟨rfl, reconstructTableLines_eq items, ?_, ?_⟩
  · have hge := sortByLt_pairwise (fun a b : Int => decide (a > b))
      (groupKeys items)
      (by
        intro a _ b _ hab
        simp only [decide_eq_true_eq] at hab
        simp only [decide_eq_false_iff_not]
        omega)
      (by
        intro a _ b _ c _ h1 h2
        simp only [decide_eq_false_iff_not] at h1 h2
        simp only [decide_eq_false_iff_not]
        omega)
    have hnd : (lineYs items).Nodup :=
      ((sortByLt_perm (fun a b : Int => decide (a > b))
        (groupKeys items)).nodup_iff).mpr (groupKeys_nodup items)
    have hcomb := List.Pairwise.and hge hnd
    exact hcomb.imp (fun hab => by
      obtain ⟨h1, h2⟩ := hab
      simp only [decide_eq_false_iff_not] at h1
      omega)
  · intro k
    have hsub : ∀ z ∈ groupItems items k, z ∈ items := by
      intro z hz
      exact (List.mem_filter.mp hz).1
    refine sortByLt_pairwise (fun a b : TextItem => qLtB a.x b.x)
      (groupItems items k) ?_ ?_
    · intro a _ b _ hab
      simp only [qLtB, decide_eq_true_eq] at hab
      simp only [qLtB, decide_eq_false_iff_not]
      exact Int.lt_asymm hab
    · intro a _ b hb c _ h1 h2
      simp only [qLtB, decide_eq_false_iff_not] at h1 h2
      simp only [qLtB, decide_eq_false_iff_not]
      intro hcon
      have hbd : (0 : Int) < (b.x.d : Int) := by
        exact_mod_cast hpos b (hsub b hb)
      have hcd : (0 : Int) ≤ (c.x.d : Int) := Int.natCast_nonneg _
      have had : (0 : Int) ≤ (a.x.d : Int) := Int.natCast_nonneg _
      have h1b : a.x.n * (b.x.d : Int) ≤ b.x.n * (a.x.d : Int) := by omega
      have h2b : b.x.n * (c.x.d : Int) ≤ c.x.n * (b.x.d : Int) := by omega
      nlinarith [mul_le_mul_of_nonneg_right h1b hcd,
        mul_le_mul_of_nonneg_right h2b had,
        mul_lt_mul_of_pos_right hcon hbd]

/-- Fragments used by the C9 witness. -/
def itemsC9 : List TextItem :=
  [⟨"B", ⟨100, 1⟩, ⟨10, 1⟩, ⟨5, 1⟩, ⟨5, 1⟩⟩,
   ⟨"A", ⟨0, 1⟩, ⟨20, 1⟩, ⟨5, 1⟩, ⟨5, 1⟩⟩]

/-- C9 witness: the theorem instantiated at a concrete two-fragment page
with well-formed coordinates. -/
theorem C9_line_reconstruction_witness :
    reconstructTableLines [] = []
    ∧ reconstructTableLines itemsC9 =
        (lineYs itemsC9).filterMap (renderRow itemsC9 (columnsOf itemsC9))
    ∧ List.Pairwise (fun a b : Int => a > b) (lineYs itemsC9)
    ∧ ∀ k : Int, List.Pairwise (fun a b : TextItem => qLtB b.x a.x = false)
        (rowItems itemsC9 k) :=
  C9_line_reconstruction itemsC9 (by decide)

end MUR
